import Mathlib

/-!
# Two-speed thermal motor controller: embedding and verified properties

Shallow embedding of `config.h`, `logging.h`, `safety.h` and `utils.h`.

* C `int` / `long` values are `Int` (the code only compares them, or multiplies a
  16-bit reading by 20, so no operation on them can overflow).
* `uint8_t` PWM values and `unsigned long` clock values are `Nat`; the one
  unsigned subtraction of the code is taken modulo `2 ^ 32` explicitly.
* `float` values are `Flt`: NaN, the two infinities, or a finite value carried as
  a rational. Comparisons follow IEEE 754 (every comparison with NaN is false).
  `roundF32` is rounding to the nearest binary32 value, ties to even; the float
  literals and float operations of the speed threshold `setC * (1.0f +
  MAX_OVER_RATIO)` are rounded with it (`Flt.add32`, `Flt.mul32`), so the
  threshold is the value the program compares with. `readTemperatureC` is
  embedded over exact arithmetic (`Flt.div`, `Flt.mul`, `Flt.sub`), which is the
  reading under which its conversion is studied.
* Function-local `static` variables become fields of an explicit state record
  that is passed in and returned; calls into the Arduino runtime
  (`logMessage`, `analogWrite`, `digitalWrite`) are recorded, in program order,
  as a list of `Effect`s.
-/

namespace Thermo

/-! ## The `float` model -/

/-- Values of the C type `float`. -/
inductive Flt where
  | nan
  | ninf
  | fin (q : ℚ)
  | pinf
  deriving DecidableEq

/-- Round to the nearest integer, ties to the even one. -/
def roundHalfEven (x : ℚ) : ℤ :=
  if x - ⌊x⌋ < 1 / 2 then ⌊x⌋
  else if 1 / 2 < x - ⌊x⌋ then ⌊x⌋ + 1
  else if ⌊x⌋ % 2 = 0 then ⌊x⌋ else ⌊x⌋ + 1

/-- Exponent of the unit in the last place of the binary32 format at `q`: 24
significant bits, and the fixed spacing `2 ^ (-149)` below `2 ^ (-126)`. -/
def f32Quantum (q : ℚ) : ℤ := max (Int.log 2 |q|) (-126) - 23

/-- Rounding of a rational to binary32, to nearest with ties to even; a result
of magnitude `2 ^ 128` or more overflows to an infinity. -/
def roundF32 (q : ℚ) : Flt :=
  if q = 0 then Flt.fin 0
  else if (2 : ℚ) ^ (128 : ℤ) ≤
      |(roundHalfEven (q / 2 ^ f32Quantum q) : ℚ) * 2 ^ f32Quantum q| then
    (if 0 < q then Flt.pinf else Flt.ninf)
  else Flt.fin ((roundHalfEven (q / 2 ^ f32Quantum q) : ℚ) * 2 ^ f32Quantum q)

namespace Flt

/-- C `isnan(x)`. -/
def isnan : Flt → Bool
  | nan => true
  | _ => false

/-- C `x < y` on floats. -/
def lt : Flt → Flt → Bool
  | nan, _ => false
  | _, nan => false
  | ninf, ninf => false
  | ninf, _ => true
  | fin _, ninf => false
  | fin a, fin b => decide (a < b)
  | fin _, pinf => true
  | pinf, _ => false

/-- C `x <= y` on floats. -/
def le : Flt → Flt → Bool
  | nan, _ => false
  | _, nan => false
  | ninf, _ => true
  | fin _, ninf => false
  | fin a, fin b => decide (a ≤ b)
  | fin _, pinf => true
  | pinf, pinf => true
  | pinf, _ => false

/-- C `x > y` on floats. -/
def gt (x y : Flt) : Bool := lt y x

/-- C `x >= y` on floats. -/
def ge (x y : Flt) : Bool := le y x

/-- Exact sum `x + y` on the extended rationals with NaN. -/
def add : Flt → Flt → Flt
  | nan, _ => nan
  | _, nan => nan
  | pinf, ninf => nan
  | ninf, pinf => nan
  | pinf, _ => pinf
  | _, pinf => pinf
  | ninf, _ => ninf
  | _, ninf => ninf
  | fin a, fin b => fin (a + b)

/-- Product of an infinity of sign `pos` with the finite value `q`. -/
def infMul (pos : Bool) (q : ℚ) : Flt :=
  if q = 0 then nan
  else if decide (0 < q) = pos then pinf
  else ninf

/-- Exact product `x * y` on the extended rationals with NaN. -/
def mul : Flt → Flt → Flt
  | nan, _ => nan
  | _, nan => nan
  | fin a, fin b => fin (a * b)
  | pinf, fin b => infMul true b
  | ninf, fin b => infMul false b
  | fin a, pinf => infMul true a
  | fin a, ninf => infMul false a
  | pinf, pinf => pinf
  | ninf, ninf => pinf
  | pinf, ninf => ninf
  | ninf, pinf => ninf

/-- Rounding of a finite value to binary32; NaN and the infinities are kept. -/
def round : Flt → Flt
  | fin q => roundF32 q
  | x => x

/-- C `x + y` on `float`: the exact sum, rounded to binary32. -/
def add32 (x y : Flt) : Flt := round (add x y)

/-- C `x * y` on `float`: the exact product, rounded to binary32. -/
def mul32 (x y : Flt) : Flt := round (mul x y)

/-- C unary `-x` on floats. -/
def neg : Flt → Flt
  | nan => nan
  | ninf => pinf
  | fin a => fin (-a)
  | pinf => ninf

/-- Exact difference `x - y` on the extended rationals with NaN. -/
def sub (x y : Flt) : Flt := add x (neg y)

/-- Exact quotient `x / y` on the extended rationals with NaN (the sign of a
zero is not modelled, a zero divisor counts as `+0`). -/
def div : Flt → Flt → Flt
  | nan, _ => nan
  | _, nan => nan
  | fin a, fin b =>
      if b = 0 then (if a = 0 then nan else if 0 < a then pinf else ninf)
      else fin (a / b)
  | fin _, pinf => fin 0
  | fin _, ninf => fin 0
  | pinf, fin b => if 0 ≤ b then pinf else ninf
  | ninf, fin b => if 0 ≤ b then ninf else pinf
  | pinf, pinf => nan
  | pinf, ninf => nan
  | ninf, pinf => nan
  | ninf, ninf => nan

/-- Conversion of a C integer to `float`, as in `(float)setC` or the implicit
promotion of an `int` constant in a comparison. -/
def ofInt (n : Int) : Flt := fin n

end Flt

/-! ## `config.h` -/

def V_REF : Flt := Flt.fin 5
/-- Source: `const float R_BITS = 10.0`, only used as `int(R_BITS)`. -/
def R_BITS : Nat := 10
/-- Source: `(1 << int(R_BITS)) - 1`, converted to `float`. -/
def ADC_STEPS : Flt := Flt.ofInt ((1 <<< R_BITS : Nat) - 1 : Int)

def HOLD_MS : Nat := 2000
def PWM_LOW : Nat := 100
def PWM_HIGH : Nat := 250
/-- Source: `const float MAX_OVER_RATIO = 0.15f`, the binary32 value nearest to
0.15. -/
def MAX_OVER_RATIO : Flt := roundF32 (15 / 100)

def POT_MIN_TEMPERATURE_VALUE : Int := 15
def POT_MAX_TEMPERATURE_VALUE : Int := 35

def MIN_SAFE_TEMPERATURE_VALUE : Int := 0
def MAX_SAFE_TEMPERATURE_VALUE : Int := 50

def LED_PIN : Nat := 7
def MOSFET_PIN : Nat := 9

/-- The `LogLevel` enumeration has underlying type `uint8_t`. -/
abbrev LogLevel := Nat

def LOG_ERROR : LogLevel := 0
def LOG_WARN : LogLevel := 1
def LOG_INFO : LogLevel := 2
def LOG_DEBUG : LogLevel := 3

def LOGGING_ACTIVE : Bool := true

/-! ## `utils.h`: `median3` -/

/-- Source: `int median3(int a, int b, int c)`. -/
def median3 (a b c : Int) : Int :=
  if (a ≥ b ∧ a ≤ c) ∨ (a ≤ b ∧ a ≥ c) then a
  else if (b ≥ a ∧ b ≤ c) ∨ (b ≤ a ∧ b ≥ c) then b
  else c


/-! ## Calls into the runtime -/

/-- One call made by the program into the logging layer or the Arduino
runtime. `logMessage` is the two-argument overload of `logging.h`, `logValue`
the overload that also takes a `float` value. -/
inductive Effect where
  | logMessage (level : LogLevel) (message : String)
  | logValue (level : LogLevel) (message : String) (value : Flt)
  | analogWrite (pin : Nat) (value : Nat)
  | digitalWrite (pin : Nat) (high : Bool)
  deriving DecidableEq

/-- Whether an effect is a call to one of the `logMessage` overloads. -/
def Effect.isLog : Effect → Bool
  | Effect.logMessage _ _ => true
  | Effect.logValue _ _ _ => true
  | _ => false

/-! ## `logging.h` -/

/-- Source: `levelToStr`. -/
def levelToStr (lv : LogLevel) : String :=
  if lv = LOG_ERROR then "ERROR"
  else if lv = LOG_WARN then "WARN"
  else if lv = LOG_INFO then "INFO"
  else "DEBUG"

/-- One call on the serial port: `Serial.print(text)` or `Serial.println(text)`. -/
inductive SerialOp where
  | print (text : String)
  | println (text : String)
  deriving DecidableEq

/-- The characters a sequence of serial calls writes; `println` ends the line
with a carriage return and a line feed. -/
def serialText : List SerialOp → String
  | [] => ""
  | SerialOp.print text :: ops => text ++ serialText ops
  | SerialOp.println text :: ops => text ++ "\r\n" ++ serialText ops

/-- Source: `logMessage(LogLevel, const char*)`, as the serial calls it makes;
`active` is the flag `LOGGING_ACTIVE` and `millis` the clock value read. -/
def logMessage (active : Bool) (millis : Nat) (level : LogLevel) (message : String) :
    List SerialOp :=
  if !active then []
  else
    [SerialOp.print (toString millis), SerialOp.print " ms ",
     SerialOp.print (levelToStr level), SerialOp.print ": ", SerialOp.println message]

/-! ## `utils.h`: `readTemperatureC` -/

/-- Source: `readTemperatureC`, over exact arithmetic; `r1 r2 r3` are the three
values returned by `analogRead(TMP36_PIN)`. -/
def readTemperatureC (r1 r2 r3 : Int) : Flt :=
  let rawValue := median3 r1 r2 r3
  let voltage := Flt.mul (Flt.div (Flt.ofInt rawValue) ADC_STEPS) V_REF
  Flt.mul (Flt.sub voltage (Flt.fin (1 / 2))) (Flt.fin 100)

/-! ## `utils.h`: `readSetpointC` -/

/-- The Arduino core function `long map(long x, long in_min, long in_max,
long out_min, long out_max)`, whose body is
`(x - in_min) * (out_max - out_min) / (in_max - in_min) + out_min`
with C (truncating) division. -/
def map (x in_min in_max out_min out_max : Int) : Int :=
  Int.tdiv ((x - in_min) * (out_max - out_min)) (in_max - in_min) + out_min

/-- The `static` variables of `readSetpointC`. -/
structure SetpointState where
  seeded : Bool
  lastSetC : Int
  deriving DecidableEq

/-- Initial values of the `static` variables of `readSetpointC`. -/
def SetpointState.init : SetpointState := { seeded := false, lastSetC := -1 }

/-- The text `snprintf` leaves in `label[48]`. -/
def setpointLabel (lastSetC setC : Int) : String :=
  ("CHANGE - SETPOINT - FROM " ++ toString lastSetC ++ " C TO " ++ toString setC ++ " C").take 47

/-- The mapped setpoint computed on line 47 from the raw dial value. -/
def mappedSetpoint (rawValue : Int) : Int :=
  map rawValue 0 1023 POT_MIN_TEMPERATURE_VALUE POT_MAX_TEMPERATURE_VALUE

structure SetpointResult where
  state : SetpointState
  value : Flt
  effects : List Effect

/-- Source: `readSetpointC`; `rawValue` is the value returned by
`analogRead(POTENTIOMETER_PIN)`. -/
def readSetpointC (s : SetpointState) (rawValue : Int) : SetpointResult :=
  let setC := mappedSetpoint rawValue
  if !s.seeded then
    { state := { seeded := true, lastSetC := setC }, value := Flt.ofInt setC, effects := [] }
  else if setC ≠ s.lastSetC then
    { state := { s with lastSetC := setC }, value := Flt.ofInt setC,
      effects := [Effect.logMessage LOG_INFO (setpointLabel s.lastSetC setC)] }
  else
    { state := s, value := Flt.ofInt setC, effects := [] }

/-- Successive calls of `readSetpointC` on a sequence of dial readings: the
effects of each call, in order. -/
def readSetpointRun : SetpointState → List Int → List (List Effect)
  | _, [] => []
  | s, r :: rs => (readSetpointC s r).effects :: readSetpointRun (readSetpointC s r).state rs

/-! ## `safety.h` -/

/-- Source: `checkRanges`, with the diagnostics it emits. -/
def checkRanges (tC setC : Flt) : Bool × List Effect :=
  if tC.isnan then
    (false, [Effect.logValue LOG_ERROR "TEMPERATURE NaN" tC])
  else if setC.isnan then
    (false, [Effect.logValue LOG_ERROR "SETPOINT NaN" setC])
  else if Flt.lt tC (Flt.ofInt MIN_SAFE_TEMPERATURE_VALUE)
      || Flt.gt tC (Flt.ofInt MAX_SAFE_TEMPERATURE_VALUE) then
    (false, [Effect.logValue LOG_ERROR "TEMP OUT OF SAFE RANGE" tC])
  else if Flt.lt setC (Flt.ofInt POT_MIN_TEMPERATURE_VALUE)
      || Flt.gt setC (Flt.ofInt POT_MAX_TEMPERATURE_VALUE) then
    (false, [Effect.logValue LOG_ERROR "SETPOINT OUT OF ALLOWED RANGE" setC])
  else
    (true, [])

/-! ## `utils.h`: `updateMotorTwoSpeed` -/

/-- The `static` variables of `updateMotorTwoSpeed`. -/
structure MotorState where
  /-- The variable `on` of the source (a reserved word here). -/
  motorOn : Bool
  curPwm : Nat
  overTiming : Bool
  underTiming : Bool
  overStart : Nat
  underStart : Nat
  deriving DecidableEq

/-- Initial values of the `static` variables of `updateMotorTwoSpeed`. -/
def MotorState.init : MotorState :=
  { motorOn := false, curPwm := 0, overTiming := false, underTiming := false,
    overStart := 0, underStart := 0 }

/-- Width of `unsigned long` on the target. -/
def ULONG_BITS : Nat := 32

/-- Subtraction `a - b` of `w`-bit unsigned integers. -/
def usub (w a b : Nat) : Nat := (a % 2 ^ w + (2 ^ w - b % 2 ^ w)) % 2 ^ w

/-- The duration check `now - start >= HOLD_MS` on a `w`-bit unsigned clock. -/
def holdElapsed (w now start : Nat) : Bool := decide (usub w now start ≥ HOLD_MS)

/-- Source: `setC * (1.0f + MAX_OVER_RATIO)`, computed in `float`: the literal,
the sum and the product are each rounded to binary32. -/
def highThresholdC (setC : Flt) : Flt :=
  Flt.mul32 setC (Flt.add32 (roundF32 1) MAX_OVER_RATIO)

/-- The text `snprintf` leaves in `msg[64]`. -/
def pwmLabel (curPwm targetPwm : Nat) : String :=
  ("CHANGE - MOTOR PWM FROM " ++ toString curPwm ++ " TO " ++ toString targetPwm).take 63

/-- Lines 83-95: the ON condition. -/
def overStep (s : MotorState) (now : Nat) (tC setC : Flt) : MotorState × List Effect :=
  if Flt.gt tC setC then
    let s1 := if !s.overTiming then { s with overTiming := true, overStart := now } else s
    if !s1.motorOn && holdElapsed ULONG_BITS now s1.overStart then
      ({ s1 with motorOn := true }, [Effect.logMessage LOG_INFO "CHANGE - MOTOR ON"])
    else (s1, [])
  else ({ s with overTiming := false }, [])

/-- Lines 97-109: the OFF condition. -/
def underStep (s : MotorState) (now : Nat) (tC setC : Flt) : MotorState × List Effect :=
  if Flt.lt tC setC then
    let s1 := if !s.underTiming then { s with underTiming := true, underStart := now } else s
    if s1.motorOn && holdElapsed ULONG_BITS now s1.underStart then
      ({ s1 with motorOn := false }, [Effect.logMessage LOG_INFO "CHANGE - MOTOR OFF"])
    else (s1, [])
  else ({ s with underTiming := false }, [])

/-- Lines 111-116: the target PWM. -/
def targetPwm (motorOn : Bool) (tC setC : Flt) : Nat :=
  if motorOn then (if Flt.ge tC (highThresholdC setC) then PWM_HIGH else PWM_LOW) else 0

/-- Lines 118-124: apply the target (log on change). -/
def applyStep (s : MotorState) (target : Nat) : MotorState × List Effect :=
  if target ≠ s.curPwm then
    ({ s with curPwm := target }, [Effect.logMessage LOG_INFO (pwmLabel s.curPwm target)])
  else (s, [])

/-- The state after lines 83-109 (the ON/OFF step) of a call. -/
def onOffStep (s : MotorState) (now : Nat) (tC setC : Flt) : MotorState :=
  (underStep (overStep s now tC setC).1 now tC setC).1

structure MotorResult where
  state : MotorState
  pwm : Nat
  effects : List Effect

/-- Source: `updateMotorTwoSpeed`; `now` is the value returned by `millis()`. -/
def updateMotorTwoSpeed (s : MotorState) (now : Nat) (tC setC : Flt) : MotorResult :=
  let r1 := overStep s now tC setC
  let r2 := underStep r1.1 now tC setC
  let r3 := applyStep r2.1 (targetPwm r2.1.motorOn tC setC)
  { state := r3.1, pwm := r3.1.curPwm,
    effects := r1.2 ++ r2.2 ++ r3.2 ++
      [Effect.analogWrite MOSFET_PIN r3.1.curPwm,
       Effect.digitalWrite LED_PIN (decide (r3.1.curPwm > 0))] }

/-- One call of a run: the clock value read and the two arguments. -/
structure Call where
  now : Nat
  tC : Flt
  setC : Flt

/-- The controller state after a sequence of calls. -/
def motorRun : MotorState → List Call → MotorState
  | s, [] => s
  | s, c :: cs => motorRun (updateMotorTwoSpeed s c.now c.tC c.setC).state cs

/-- Calls with the same arguments `tC`, `setC` at the clock values `ts`. -/
def constCalls (ts : List Nat) (tC setC : Flt) : List Call :=
  ts.map (fun t => { now := t, tC := tC, setC := setC })

/-- The clock values of the calls of a run at which the motor flag changed
(an OFF-to-ON or an ON-to-OFF transition), in order. -/
def transitionTimes : MotorState → List Call → List Nat
  | _, [] => []
  | s, c :: cs =>
    (if (updateMotorTwoSpeed s c.now c.tC c.setC).state.motorOn ≠ s.motorOn then [c.now]
     else []) ++
      transitionTimes (updateMotorTwoSpeed s c.now c.tC c.setC).state cs

/-! ## Theorems -/

/-! ### Auxiliary lemmas -/

theorem roundHalfEven_eq (x : ℚ) (f : ℤ) (h1 : (f : ℚ) ≤ x) (h2 : x < f + 1) :
    roundHalfEven x =
      if x - f < 1 / 2 then f
      else if 1 / 2 < x - f then f + 1
      else if f % 2 = 0 then f else f + 1 := by
  have hf : ⌊x⌋ = f := Int.floor_eq_iff.mpr ⟨h1, h2⟩
  unfold roundHalfEven
  rw [hf]

theorem f32Quantum_eq (q : ℚ) (e : ℤ) (h1 : (2 : ℚ) ^ e ≤ |q|) (h2 : |q| < (2 : ℚ) ^ (e + 1)) :
    f32Quantum q = max e (-126) - 23 := by
  have hpos : (0 : ℚ) < |q| := lt_of_lt_of_le (zpow_pos (by norm_num) e) h1
  have hlog : Int.log 2 |q| = e := by
    apply le_antisymm
    · have := (Int.lt_zpow_iff_log_lt (by norm_num : 1 < 2) hpos (x := e + 1)).mp
        (by exact_mod_cast h2)
      omega
    · exact (Int.zpow_le_iff_le_log (by norm_num : 1 < 2) hpos).mp (by exact_mod_cast h1)
  unfold f32Quantum
  rw [hlog]

/-- Evaluation of `roundF32` at a normal value from its binary exponent `e` and
the integer part `f` of its scaled significand. -/
theorem roundF32_eval (q : ℚ) (e f m : ℤ) (hq : q ≠ 0)
    (he1 : (2 : ℚ) ^ e ≤ |q|) (he2 : |q| < (2 : ℚ) ^ (e + 1)) (hemin : -126 ≤ e)
    (hf1 : (f : ℚ) ≤ q / 2 ^ (e - 23)) (hf2 : q / 2 ^ (e - 23) < f + 1)
    (hm : m = if q / 2 ^ (e - 23) - f < 1 / 2 then f
      else if 1 / 2 < q / 2 ^ (e - 23) - f then f + 1
      else if f % 2 = 0 then f else f + 1)
    (hfin : |(m : ℚ) * 2 ^ (e - 23)| < (2 : ℚ) ^ (128 : ℤ)) :
    roundF32 q = Flt.fin ((m : ℚ) * 2 ^ (e - 23)) := by
  have hk : f32Quantum q = e - 23 := by
    rw [f32Quantum_eq q e he1 he2, max_eq_left hemin]
  unfold roundF32
  rw [hk, roundHalfEven_eq _ f hf1 hf2, ← hm, if_neg hq, if_neg (not_le.mpr hfin)]

theorem MAX_OVER_RATIO_eq : MAX_OVER_RATIO = Flt.fin (5033165 / 33554432) := by
  unfold MAX_OVER_RATIO
  rw [roundF32_eval (15 / 100) (-3) 10066329 10066330 (by norm_num) (by norm_num [abs_of_pos])
    (by norm_num [abs_of_pos]) (by norm_num) (by norm_num) (by norm_num) (by norm_num)
    (by norm_num [abs_of_pos])]
  norm_num

theorem roundF32_one : roundF32 1 = Flt.fin 1 := by
  rw [roundF32_eval 1 0 8388608 8388608 (by norm_num) (by norm_num)
    (by norm_num) (by norm_num) (by norm_num) (by norm_num) (by norm_num)
    (by norm_num [abs_of_pos])]
  norm_num

/-- The float constant `1.0f + MAX_OVER_RATIO` is `0x1.266666p+0`. -/
theorem overFactor_eq :
    Flt.add32 (roundF32 1) MAX_OVER_RATIO = Flt.fin (9646899 / 8388608) := by
  rw [roundF32_one, MAX_OVER_RATIO_eq]
  simp only [Flt.add32, Flt.add, Flt.round]
  rw [roundF32_eval (1 + 5033165 / 33554432) 0 9646899 9646899 (by norm_num)
    (by norm_num [abs_of_pos]) (by norm_num [abs_of_pos]) (by norm_num) (by norm_num)
    (by norm_num) (by norm_num) (by norm_num [abs_of_pos])]
  norm_num

theorem highThresholdC_25 : highThresholdC (Flt.fin 25) = Flt.fin (115 / 4) := by
  unfold highThresholdC
  rw [overFactor_eq]
  simp only [Flt.mul32, Flt.mul, Flt.round]
  rw [roundF32_eval (25 * (9646899 / 8388608)) 4 15073279 15073280 (by norm_num)
    (by norm_num [abs_of_pos]) (by norm_num [abs_of_pos]) (by norm_num) (by norm_num)
    (by norm_num) (by norm_num) (by norm_num [abs_of_pos])]
  norm_num

theorem highThresholdC_16 : highThresholdC (Flt.fin 16) = Flt.fin (9646899 / 524288) := by
  unfold highThresholdC
  rw [overFactor_eq]
  simp only [Flt.mul32, Flt.mul, Flt.round]
  rw [roundF32_eval (16 * (9646899 / 8388608)) 4 9646899 9646899 (by norm_num)
    (by norm_num [abs_of_pos]) (by norm_num [abs_of_pos]) (by norm_num) (by norm_num)
    (by norm_num) (by norm_num) (by norm_num [abs_of_pos])]
  norm_num

theorem Flt.lt_asymm_bool (a b : Flt) (h : Flt.lt a b = true) : Flt.lt b a = false := by
  cases a <;> cases b <;> simp_all [Flt.lt]
  exact le_of_lt h

theorem Flt.lt_irrefl_bool (a : Flt) : Flt.lt a a = false := by
  cases a <;> simp [Flt.lt]

theorem Flt.le_false_of_lt (a b : Flt) (h : Flt.lt a b = true) : Flt.le b a = false := by
  cases a <;> cases b <;> simp_all [Flt.lt, Flt.le]

theorem checkRanges_fst (tC setC : Flt) :
    (checkRanges tC setC).1 =
      (!tC.isnan && !setC.isnan &&
        !(Flt.lt tC (Flt.ofInt MIN_SAFE_TEMPERATURE_VALUE)
          || Flt.gt tC (Flt.ofInt MAX_SAFE_TEMPERATURE_VALUE)) &&
        !(Flt.lt setC (Flt.ofInt POT_MIN_TEMPERATURE_VALUE)
          || Flt.gt setC (Flt.ofInt POT_MAX_TEMPERATURE_VALUE))) := by
  unfold checkRanges
  cases tC.isnan <;> cases setC.isnan <;>
    cases Flt.lt tC (Flt.ofInt MIN_SAFE_TEMPERATURE_VALUE) <;>
    cases Flt.gt tC (Flt.ofInt MAX_SAFE_TEMPERATURE_VALUE) <;>
    cases Flt.lt setC (Flt.ofInt POT_MIN_TEMPERATURE_VALUE) <;>
    cases Flt.gt setC (Flt.ofInt POT_MAX_TEMPERATURE_VALUE) <;> rfl

theorem mappedSetpoint_eq (r : Int) (h0 : 0 ≤ r) : mappedSetpoint r = r * 20 / 1023 + 15 := by
  unfold mappedSetpoint map POT_MIN_TEMPERATURE_VALUE POT_MAX_TEMPERATURE_VALUE
  rw [Int.tdiv_eq_ediv (by omega) (by omega)]
  norm_num

theorem usub_eq_sub (w s n : Nat) (hsn : s ≤ n) (hd : n - s < 2 ^ w) :
    usub w (n % 2 ^ w) (s % 2 ^ w) = n - s := by
  unfold usub
  have hpos : 0 < 2 ^ w := Nat.two_pow_pos w
  rw [Nat.mod_mod, Nat.mod_mod]
  have hs : s % 2 ^ w < 2 ^ w := Nat.mod_lt _ hpos
  have key : (n % 2 ^ w + (2 ^ w - s % 2 ^ w)) % 2 ^ w = (n - s) % 2 ^ w := by
    have h1 : (n % 2 ^ w + (2 ^ w - s % 2 ^ w)) % 2 ^ w
        = (n + (2 ^ w - s % 2 ^ w)) % 2 ^ w := by
      rw [Nat.add_mod, Nat.mod_mod, ← Nat.add_mod]
    rw [h1]
    have h2 : n + (2 ^ w - s % 2 ^ w) = (n - s) + 2 ^ w * (s / 2 ^ w + 1) := by
      have := Nat.div_add_mod s (2 ^ w)
      have e : 2 ^ w * (s / 2 ^ w + 1) = 2 ^ w * (s / 2 ^ w) + 2 ^ w := by ring
      omega
    rw [h2, Nat.add_mul_mod_self_left]
  rw [key, Nat.mod_eq_of_lt hd]

theorem usub_small (a b : Nat) (hba : b ≤ a) (ha : a < 2 ^ ULONG_BITS) :
    usub ULONG_BITS a b = a - b := by
  have h := usub_eq_sub ULONG_BITS b a hba (by omega)
  rwa [Nat.mod_eq_of_lt ha, Nat.mod_eq_of_lt (by omega)] at h

theorem usub_int (w a b : Nat) :
    ((usub w a b : Nat) : Int) = ((a : Int) - (b : Int)) % (2 ^ w : Int) := by
  unfold usub
  have hb : b % 2 ^ w < 2 ^ w := Nat.mod_lt _ (Nat.two_pow_pos w)
  push_cast [Nat.cast_sub (le_of_lt hb)]
  rw [Int.emod_eq_emod_iff_emod_sub_eq_zero]
  have e : ((a : Int) % 2 ^ w + (2 ^ w - (b : Int) % 2 ^ w) - ((a : Int) - b))
      = (2 ^ w : Int) * (1 + (b : Int) / 2 ^ w - (a : Int) / 2 ^ w) := by
    rw [Int.emod_def, Int.emod_def]
    ring
  rw [e, Int.mul_emod_right]

theorem update_state (s : MotorState) (now : Nat) (tC setC : Flt) :
    (updateMotorTwoSpeed s now tC setC).state =
      { onOffStep s now tC setC with
        curPwm := targetPwm (onOffStep s now tC setC).motorOn tC setC } := by
  unfold updateMotorTwoSpeed applyStep onOffStep
  simp only []
  split_ifs with h
  · rfl
  · simp only [ne_eq, not_not] at h
    rw [h]

theorem update_pwm (s : MotorState) (now : Nat) (tC setC : Flt) :
    (updateMotorTwoSpeed s now tC setC).pwm =
      targetPwm (onOffStep s now tC setC).motorOn tC setC := by
  have h := update_state s now tC setC
  have h2 : (updateMotorTwoSpeed s now tC setC).pwm
      = (updateMotorTwoSpeed s now tC setC).state.curPwm := rfl
  rw [h2, h]

theorem onOffStep_over (s : MotorState) (now : Nat) (tC setC : Flt)
    (h : Flt.gt tC setC = true) :
    onOffStep s now tC setC =
      { s with
        overTiming := true
        overStart := if s.overTiming then s.overStart else now
        motorOn := s.motorOn ||
          holdElapsed ULONG_BITS now (if s.overTiming then s.overStart else now)
        underTiming := false } := by
  have h2 : Flt.lt tC setC = false := Flt.lt_asymm_bool _ _ h
  unfold onOffStep underStep overStep
  rw [h2]
  simp only [h, if_true]
  cases s with
  | mk o p ot ut os us =>
    cases o <;> cases ot <;> simp <;> split_ifs <;> simp_all

theorem onOffStep_under (s : MotorState) (now : Nat) (tC setC : Flt)
    (h : Flt.lt tC setC = true) :
    onOffStep s now tC setC =
      { s with
        overTiming := false
        underTiming := true
        underStart := if s.underTiming then s.underStart else now
        motorOn := s.motorOn &&
          !holdElapsed ULONG_BITS now (if s.underTiming then s.underStart else now) } := by
  have h2 : Flt.gt tC setC = false := Flt.lt_asymm_bool _ _ h
  unfold onOffStep underStep overStep
  rw [h2]
  simp only [h, if_true]
  cases s with
  | mk o p ot ut os us =>
    cases o <;> cases ut <;> simp <;> split_ifs <;> simp_all

theorem onOffStep_neither (s : MotorState) (now : Nat) (tC setC : Flt)
    (h1 : Flt.gt tC setC = false) (h2 : Flt.lt tC setC = false) :
    onOffStep s now tC setC = { s with overTiming := false, underTiming := false } := by
  unfold onOffStep underStep overStep
  rw [h1, h2]
  simp

theorem targetPwm_cases (b : Bool) (tC setC : Flt) :
    (targetPwm b tC setC = 0 ↔ b = false) ∧
    (targetPwm b tC setC = 0 ∨ targetPwm b tC setC = PWM_LOW ∨
      targetPwm b tC setC = PWM_HIGH) := by
  unfold targetPwm PWM_LOW PWM_HIGH
  cases b
  · simp
  · simp only [if_true]
    split_ifs <;> simp

theorem motorRun_append (s : MotorState) (xs ys : List Call) :
    motorRun s (xs ++ ys) = motorRun (motorRun s xs) ys := by
  induction xs generalizing s with
  | nil => rfl
  | cons c cs ih => simp [motorRun, ih]

theorem overStep_curPwm (s : MotorState) (now : Nat) (tC setC : Flt) :
    (overStep s now tC setC).1.curPwm = s.curPwm := by
  unfold overStep
  split_ifs <;> simp_all <;> split_ifs <;> simp_all

theorem underStep_curPwm (s : MotorState) (now : Nat) (tC setC : Flt) :
    (underStep s now tC setC).1.curPwm = s.curPwm := by
  unfold underStep
  split_ifs <;> simp_all <;> split_ifs <;> simp_all

theorem overStep_of_on (s : MotorState) (now : Nat) (tC setC : Flt)
    (h : s.motorOn = true) :
    (overStep s now tC setC).1.motorOn = true ∧ (overStep s now tC setC).2 = [] := by
  unfold overStep
  split_ifs <;> simp_all

theorem overStep_of_not_gt (s : MotorState) (now : Nat) (tC setC : Flt)
    (h : Flt.gt tC setC = false) :
    (overStep s now tC setC).1.motorOn = s.motorOn ∧ (overStep s now tC setC).2 = [] := by
  unfold overStep
  simp [h]

theorem underStep_of_off (s : MotorState) (now : Nat) (tC setC : Flt)
    (h : s.motorOn = false) :
    (underStep s now tC setC).1.motorOn = false ∧ (underStep s now tC setC).2 = [] := by
  unfold underStep
  split_ifs <;> simp_all

theorem underStep_of_not_lt (s : MotorState) (now : Nat) (tC setC : Flt)
    (h : Flt.lt tC setC = false) :
    (underStep s now tC setC).1.motorOn = s.motorOn ∧ (underStep s now tC setC).2 = [] := by
  unfold underStep
  simp [h]

theorem applyStep_same (s : MotorState) (target : Nat) (h : s.curPwm = target) :
    applyStep s target = (s, []) := by
  unfold applyStep
  simp [h]

theorem stable_step (s : MotorState) (now : Nat) (tC setC : Flt)
    (hst : (Flt.gt tC setC = true ∧ s.motorOn = true) ∨
      (Flt.lt tC setC = true ∧ s.motorOn = false) ∨ tC = setC)
    (hp : s.curPwm = targetPwm s.motorOn tC setC) :
    (updateMotorTwoSpeed s now tC setC).effects =
        [Effect.analogWrite MOSFET_PIN s.curPwm,
         Effect.digitalWrite LED_PIN (decide (s.curPwm > 0))] ∧
      (updateMotorTwoSpeed s now tC setC).pwm = s.curPwm ∧
      (updateMotorTwoSpeed s now tC setC).state.motorOn = s.motorOn ∧
      (updateMotorTwoSpeed s now tC setC).state.curPwm = s.curPwm := by
  have hon : (overStep s now tC setC).1.motorOn = s.motorOn ∧
      (overStep s now tC setC).2 = [] ∧
      (underStep (overStep s now tC setC).1 now tC setC).1.motorOn = s.motorOn ∧
      (underStep (overStep s now tC setC).1 now tC setC).2 = [] := by
    rcases hst with ⟨hg, hon⟩ | ⟨hl, hoff⟩ | heq
    · have hl : Flt.lt tC setC = false := Flt.lt_asymm_bool _ _ hg
      have h1 := overStep_of_on s now tC setC hon
      have h2 := underStep_of_not_lt (overStep s now tC setC).1 now tC setC hl
      rw [hon]
      exact ⟨h1.1, h1.2, h2.1.trans h1.1, h2.2⟩
    · have hg : Flt.gt tC setC = false := Flt.lt_asymm_bool _ _ hl
      have h1 := overStep_of_not_gt s now tC setC hg
      have h2 := underStep_of_off (overStep s now tC setC).1 now tC setC (h1.1.trans hoff)
      rw [hoff]
      exact ⟨h1.1.trans hoff, h1.2, h2.1, h2.2⟩
    · subst heq
      have h1 := overStep_of_not_gt s now tC tC (Flt.lt_irrefl_bool _)
      have h2 := underStep_of_not_lt (overStep s now tC tC).1 now tC tC (Flt.lt_irrefl_bool _)
      exact ⟨h1.1, h1.2, h2.1.trans h1.1, h2.2⟩
  obtain ⟨_, e1, m2, e2⟩ := hon
  have hc : (underStep (overStep s now tC setC).1 now tC setC).1.curPwm = s.curPwm := by
    rw [underStep_curPwm, overStep_curPwm]
  have ha := applyStep_same (underStep (overStep s now tC setC).1 now tC setC).1
    (targetPwm (underStep (overStep s now tC setC).1 now tC setC).1.motorOn tC setC)
    (by rw [hc, m2]; exact hp)
  rw [m2] at ha
  unfold updateMotorTwoSpeed
  simp only [m2, ha, e1, e2, hc, List.nil_append, and_self]

theorem motorRun_invariant (s : MotorState) (calls : List Call)
    (h : s.curPwm = 0 ↔ s.motorOn = false) :
    (motorRun s calls).curPwm = 0 ↔ (motorRun s calls).motorOn = false := by
  induction calls generalizing s with
  | nil => exact h
  | cons c cs ih =>
    apply ih
    rw [update_state]
    exact (targetPwm_cases _ _ _).1

theorem ge_30_threshold_25 : Flt.ge (Flt.fin 30) (highThresholdC (Flt.fin 25)) = true := by
  rw [highThresholdC_25]
  simp only [Flt.ge, Flt.le]
  norm_num

theorem ge_27_threshold_25 : Flt.ge (Flt.fin 27) (highThresholdC (Flt.fin 25)) = false := by
  rw [highThresholdC_25]
  simp only [Flt.ge, Flt.le]
  norm_num

theorem gt_fin (a b : ℚ) (h : b < a) : Flt.gt (Flt.fin a) (Flt.fin b) = true := by
  simp [Flt.gt, Flt.lt, h]

theorem lt_fin (a b : ℚ) (h : a < b) : Flt.lt (Flt.fin a) (Flt.fin b) = true := by
  simp [Flt.lt, h]

theorem stable_run (tC setC : Flt) (ts : List Nat) (s : MotorState)
    (hst : (Flt.gt tC setC = true ∧ s.motorOn = true) ∨
      (Flt.lt tC setC = true ∧ s.motorOn = false) ∨ tC = setC)
    (hp : s.curPwm = targetPwm s.motorOn tC setC) :
    (motorRun s (constCalls ts tC setC)).motorOn = s.motorOn ∧
      (motorRun s (constCalls ts tC setC)).curPwm = s.curPwm := by
  induction ts generalizing s with
  | nil => exact ⟨rfl, rfl⟩
  | cons t ts ih =>
    obtain ⟨_, _, hm, hc⟩ := stable_step s t tC setC hst hp
    have h := ih (updateMotorTwoSpeed s t tC setC).state (by rw [hm]; exact hst)
      (by rw [hm, hc]; exact hp)
    rw [hm, hc] at h
    exact h

theorem usub_self (w a : Nat) : usub w a a = 0 := by
  unfold usub
  have h : a % 2 ^ w < 2 ^ w := Nat.mod_lt _ (Nat.two_pow_pos w)
  rw [← Nat.add_sub_assoc (le_of_lt h), Nat.add_sub_cancel_left, Nat.mod_self]

theorem holdElapsed_self (w a : Nat) : holdElapsed w a a = false := by
  simp [holdElapsed, usub_self, HOLD_MS]

theorem holdElapsed_small (now start : Nat) (h1 : start ≤ now) (h2 : now < 2 ^ ULONG_BITS) :
    holdElapsed ULONG_BITS now start = decide (HOLD_MS ≤ now - start) := by
  unfold holdElapsed
  rw [usub_small now start h1 h2]

theorem over_call (s : MotorState) (now : Nat) (tC setC : Flt)
    (hoff : s.motorOn = false) (hgt : Flt.gt tC setC = true) :
    (updateMotorTwoSpeed s now tC setC).state.motorOn =
        holdElapsed ULONG_BITS now (if s.overTiming then s.overStart else now) ∧
      (updateMotorTwoSpeed s now tC setC).state.overTiming = true ∧
      (updateMotorTwoSpeed s now tC setC).state.overStart =
        (if s.overTiming then s.overStart else now) ∧
      (updateMotorTwoSpeed s now tC setC).pwm =
        targetPwm (holdElapsed ULONG_BITS now (if s.overTiming then s.overStart else now))
          tC setC := by
  rw [update_pwm, update_state, onOffStep_over s now tC setC hgt]
  simp [hoff]

theorem over_run (calls : List Call) (s : MotorState)
    (hoff : s.motorOn = false) (hot : s.overTiming = true)
    (hc : ∀ c ∈ calls, Flt.gt c.tC c.setC = true ∧
      holdElapsed ULONG_BITS c.now s.overStart = false) :
    (motorRun s calls).motorOn = false ∧ (motorRun s calls).overTiming = true ∧
      (motorRun s calls).overStart = s.overStart := by
  induction calls generalizing s with
  | nil => exact ⟨hoff, hot, rfl⟩
  | cons c cs ih =>
    obtain ⟨hg, he⟩ := hc c (List.mem_cons_self _ _)
    obtain ⟨h1, h2, h3, _⟩ := over_call s c.now c.tC c.setC hoff hg
    simp only [hot, if_true] at h1 h3
    have := ih (updateMotorTwoSpeed s c.now c.tC c.setC).state (by rw [h1, he]) h2
      (by
        intro d hd
        rw [h3]
        exact hc d (List.mem_cons_of_mem _ hd))
    rw [h3] at this
    exact this

theorem mem_constCalls (ts : List Nat) (tC setC : Flt) (c : Call)
    (h : c ∈ constCalls ts tC setC) : ∃ t ∈ ts, c = { now := t, tC := tC, setC := setC } := by
  unfold constCalls at h
  rw [List.mem_map] at h
  obtain ⟨t, ht, rfl⟩ := h
  exact ⟨t, ht, rfl⟩

/-- The ON hold time, for a controller whose over-timer is already running
since `t0`. -/
theorem on_hold_running (s : MotorState) (tC setC : Flt) (t0 : Nat)
    (hgt : Flt.gt tC setC = true) (hoff : s.motorOn = false) (hot : s.overTiming = true)
    (hst : s.overStart = t0) (pre : List Nat) (t : Nat)
    (hpre : ∀ u ∈ pre, t0 ≤ u ∧ u < 2 ^ ULONG_BITS ∧ u - t0 < HOLD_MS)
    (h0 : t0 ≤ t) (hw : t < 2 ^ ULONG_BITS) :
    (updateMotorTwoSpeed (motorRun s (constCalls pre tC setC)) t tC setC).state.motorOn =
        decide (HOLD_MS ≤ t - t0) ∧
      (updateMotorTwoSpeed (motorRun s (constCalls pre tC setC)) t tC setC).pwm =
        targetPwm (decide (HOLD_MS ≤ t - t0)) tC setC := by
  obtain ⟨r1, r2, r3⟩ := over_run (constCalls pre tC setC) s hoff hot (by
    intro c hc
    obtain ⟨u, hu, rfl⟩ := mem_constCalls _ _ _ _ hc
    obtain ⟨a, b, d⟩ := hpre u hu
    refine ⟨hgt, ?_⟩
    rw [hst, holdElapsed_small u t0 a b]
    simpa using d)
  obtain ⟨h1, _, _, h4⟩ := over_call (motorRun s (constCalls pre tC setC)) t tC setC r1 hgt
  simp only [r2, if_true, r3, hst] at h1 h4
  rw [holdElapsed_small t t0 h0 hw] at h1 h4
  exact ⟨h1, h4⟩

theorem targetPwm_low (tC setC : Flt) (h : Flt.lt tC (highThresholdC setC) = true) :
    targetPwm true tC setC = PWM_LOW := by
  have h2 : Flt.ge tC (highThresholdC setC) = false := Flt.le_false_of_lt _ _ h
  simp [targetPwm, h2]

theorem Flt.lt_false_of_ge (a b : Flt) (h : Flt.ge a b = true) : Flt.lt a b = false := by
  cases a <;> cases b <;> simp_all [Flt.lt, Flt.le, Flt.ge]

theorem targetPwm_on_ne_zero (tC setC : Flt) : targetPwm true tC setC ≠ 0 := by
  intro h
  have := (targetPwm_cases true tC setC).1.mp h
  simp at this

theorem under_call (s : MotorState) (now : Nat) (tC setC : Flt)
    (hon : s.motorOn = true) (hlt : Flt.lt tC setC = true) :
    (updateMotorTwoSpeed s now tC setC).state.motorOn =
        (!holdElapsed ULONG_BITS now (if s.underTiming then s.underStart else now)) ∧
      (updateMotorTwoSpeed s now tC setC).state.underTiming = true ∧
      (updateMotorTwoSpeed s now tC setC).state.underStart =
        (if s.underTiming then s.underStart else now) ∧
      (updateMotorTwoSpeed s now tC setC).pwm =
        targetPwm (!holdElapsed ULONG_BITS now (if s.underTiming then s.underStart else now))
          tC setC := by
  rw [update_pwm, update_state, onOffStep_under s now tC setC hlt]
  simp [hon]

theorem under_run (calls : List Call) (s : MotorState)
    (hon : s.motorOn = true) (hut : s.underTiming = true)
    (hc : ∀ c ∈ calls, Flt.lt c.tC c.setC = true ∧
      holdElapsed ULONG_BITS c.now s.underStart = false) :
    (motorRun s calls).motorOn = true ∧ (motorRun s calls).underTiming = true ∧
      (motorRun s calls).underStart = s.underStart := by
  induction calls generalizing s with
  | nil => exact ⟨hon, hut, rfl⟩
  | cons c cs ih =>
    obtain ⟨hl, he⟩ := hc c (List.mem_cons_self _ _)
    obtain ⟨h1, h2, h3, _⟩ := under_call s c.now c.tC c.setC hon hl
    simp only [hut, if_true] at h1 h3
    have := ih (updateMotorTwoSpeed s c.now c.tC c.setC).state (by rw [h1, he]; rfl) h2
      (by
        intro d hd
        rw [h3]
        exact hc d (List.mem_cons_of_mem _ hd))
    rw [h3] at this
    exact this

/-- The OFF hold time, for a controller whose under-timer is already running
since `t0`. -/
theorem off_hold_running (s : MotorState) (tC setC : Flt) (t0 : Nat)
    (hlt : Flt.lt tC setC = true) (hon : s.motorOn = true) (hut : s.underTiming = true)
    (hst : s.underStart = t0) (pre : List Nat) (t : Nat)
    (hpre : ∀ u ∈ pre, t0 ≤ u ∧ u < 2 ^ ULONG_BITS ∧ u - t0 < HOLD_MS)
    (h0 : t0 ≤ t) (hw : t < 2 ^ ULONG_BITS) :
    (motorRun s (constCalls pre tC setC)).motorOn = true ∧
      (updateMotorTwoSpeed (motorRun s (constCalls pre tC setC)) t tC setC).state.motorOn =
        (!decide (HOLD_MS ≤ t - t0)) ∧
      (updateMotorTwoSpeed (motorRun s (constCalls pre tC setC)) t tC setC).pwm =
        targetPwm (!decide (HOLD_MS ≤ t - t0)) tC setC := by
  obtain ⟨r1, r2, r3⟩ := under_run (constCalls pre tC setC) s hon hut (by
    intro c hc
    obtain ⟨u, hu, rfl⟩ := mem_constCalls _ _ _ _ hc
    obtain ⟨a, b, d⟩ := hpre u hu
    refine ⟨hlt, ?_⟩
    rw [hst, holdElapsed_small u t0 a b]
    simpa using d)
  obtain ⟨h1, _, _, h4⟩ := under_call (motorRun s (constCalls pre tC setC)) t tC setC r1 hlt
  simp only [r2, if_true, r3, hst] at h1 h4
  rw [holdElapsed_small t t0 h0 hw] at h1 h4
  exact ⟨r1, h1, h4⟩

/-- The OFF hold time from a state with the motor ON and the under-timer
inactive. -/
theorem off_hold_core (s : MotorState) (tC setC : Flt) (t0 : Nat) (rest : List Nat)
    (hlt : Flt.lt tC setC = true) (hon : s.motorOn = true) (hidle : s.underTiming = false)
    (hmono : List.Sorted (· ≤ ·) (t0 :: rest))
    (hwrap : ∀ u ∈ t0 :: rest, u < 2 ^ ULONG_BITS)
    (pre : List Nat) (t : Nat) (post : List Nat) (hsplit : t0 :: rest = pre ++ t :: post) :
    (t - t0 < HOLD_MS →
      (updateMotorTwoSpeed (motorRun s (constCalls pre tC setC)) t tC setC).state.motorOn
        = true ∧
      (updateMotorTwoSpeed (motorRun s (constCalls pre tC setC)) t tC setC).pwm ≠ 0) ∧
    (HOLD_MS ≤ t - t0 → (∀ u ∈ pre, u - t0 < HOLD_MS) →
      (updateMotorTwoSpeed (motorRun s (constCalls pre tC setC)) t tC setC).state.motorOn
        = false ∧
      (updateMotorTwoSpeed (motorRun s (constCalls pre tC setC)) t tC setC).pwm = 0) := by
  cases pre with
  | nil =>
    simp only [List.nil_append, List.cons.injEq] at hsplit
    obtain ⟨rfl, _⟩ := hsplit
    obtain ⟨h1, _, _, h4⟩ := under_call s t0 tC setC hon hlt
    simp only [hidle, Bool.false_eq_true, if_false, holdElapsed_self, Bool.not_false] at h1 h4
    refine ⟨fun _ => ⟨?_, ?_⟩, fun h => ?_⟩
    · simpa [constCalls, motorRun] using h1
    · have : (updateMotorTwoSpeed s t0 tC setC).pwm ≠ 0 := by
        rw [h4]
        exact targetPwm_on_ne_zero tC setC
      simpa [constCalls, motorRun] using this
    · simp [HOLD_MS] at h
  | cons p pre =>
    simp only [List.cons_append, List.cons.injEq] at hsplit
    obtain ⟨rfl, hrest⟩ := hsplit
    subst hrest
    obtain ⟨hle, hsorted⟩ := List.sorted_cons.mp hmono
    have hcross : ∀ u ∈ pre, u ≤ t := fun u hu =>
      (List.pairwise_append.mp hsorted).2.2 u hu t (List.mem_cons_self _ _)
    have hmem : ∀ u ∈ pre, u ∈ pre ++ t :: post := fun u hu =>
      List.mem_append_left _ hu
    have htm : t ∈ pre ++ t :: post := List.mem_append_right _ (List.mem_cons_self _ _)
    obtain ⟨h1, h2, h3, _⟩ := under_call s t0 tC setC hon hlt
    simp only [hidle, Bool.false_eq_true, if_false, holdElapsed_self, Bool.not_false] at h1 h3
    have hrun : motorRun s (constCalls (t0 :: pre) tC setC)
        = motorRun (updateMotorTwoSpeed s t0 tC setC).state (constCalls pre tC setC) := rfl
    rw [hrun]
    have key := fun hpre => off_hold_running (updateMotorTwoSpeed s t0 tC setC).state tC setC t0
      hlt h1 h2 h3 pre t hpre (hle t htm) (hwrap t (List.mem_cons_of_mem _ htm))
    refine ⟨fun hlt => ?_, fun hge hfirst => ?_⟩
    · obtain ⟨_, k1, k2⟩ := key (fun u hu =>
        ⟨hle u (hmem u hu), hwrap u (List.mem_cons_of_mem _ (hmem u hu)), by
          have := hcross u hu
          omega⟩)
      have hd : decide (HOLD_MS ≤ t - t0) = false := by simpa using hlt
      rw [hd] at k1 k2
      exact ⟨k1, by rw [k2]; exact targetPwm_on_ne_zero tC setC⟩
    · obtain ⟨_, k1, k2⟩ := key (fun u hu =>
        ⟨hle u (hmem u hu), hwrap u (List.mem_cons_of_mem _ (hmem u hu)),
          hfirst u (List.mem_cons_of_mem _ hu)⟩)
      have hd : decide (HOLD_MS ≤ t - t0) = true := by simpa using hge
      rw [hd] at k1 k2
      exact ⟨k1, by simpa [targetPwm] using k2⟩

/-- A call with `tC >= setC` on a running motor leaves it running and resets the
under-timer. -/
theorem interrupt_resets (s : MotorState) (now : Nat) (tC setC : Flt)
    (hon : s.motorOn = true) (hge : Flt.ge tC setC = true) :
    (updateMotorTwoSpeed s now tC setC).state.motorOn = true ∧
      (updateMotorTwoSpeed s now tC setC).state.underTiming = false := by
  have hl : Flt.lt tC setC = false := Flt.lt_false_of_ge _ _ hge
  rw [update_state]
  cases hg : Flt.gt tC setC
  · rw [onOffStep_neither s now tC setC hg hl]
    exact ⟨hon, rfl⟩
  · rw [onOffStep_over s now tC setC hg]
    simp [hon]

/-- While the under-interval is shorter than `HOLD_MS` the motor stays ON. -/
theorem under_run_stays_on (s : MotorState) (tC setC : Flt) (b0 : Nat) (bs : List Nat)
    (hlt : Flt.lt tC setC = true) (hon : s.motorOn = true) (hidle : s.underTiming = false)
    (hmono : List.Sorted (· ≤ ·) (b0 :: bs))
    (hb : ∀ u ∈ b0 :: bs, u < 2 ^ ULONG_BITS ∧ u - b0 < HOLD_MS) :
    (motorRun s (constCalls (b0 :: bs) tC setC)).motorOn = true := by
  obtain ⟨hle, _⟩ := List.sorted_cons.mp hmono
  obtain ⟨h1, h2, h3, _⟩ := under_call s b0 tC setC hon hlt
  simp only [hidle, Bool.false_eq_true, if_false, holdElapsed_self, Bool.not_false] at h1 h3
  have hrun : motorRun s (constCalls (b0 :: bs) tC setC)
      = motorRun (updateMotorTwoSpeed s b0 tC setC).state (constCalls bs tC setC) := rfl
  rw [hrun]
  exact (under_run (constCalls bs tC setC) _ h1 h2 (by
    intro c hc
    obtain ⟨u, hu, rfl⟩ := mem_constCalls _ _ _ _ hc
    obtain ⟨a, d⟩ := hb u (List.mem_cons_of_mem _ hu)
    refine ⟨hlt, ?_⟩
    rw [h3, holdElapsed_small u b0 (hle u hu) a]
    simpa using d)).1

theorem readSetpointC_seeded (a : Int) (r : Int) :
    (readSetpointC { seeded := true, lastSetC := a } r).effects =
        (if mappedSetpoint r ≠ a then
          [Effect.logMessage LOG_INFO (setpointLabel a (mappedSetpoint r))] else []) ∧
      (readSetpointC { seeded := true, lastSetC := a } r).state =
        { seeded := true, lastSetC := mappedSetpoint r } := by
  unfold readSetpointC
  by_cases h : mappedSetpoint r = a
  · simp [h]
  · simp [h]

theorem readSetpointC_init (r : Int) :
    (readSetpointC SetpointState.init r).effects = [] ∧
      (readSetpointC SetpointState.init r).state =
        { seeded := true, lastSetC := mappedSetpoint r } := by
  simp [readSetpointC, SetpointState.init]

theorem readSetpointRun_length (s : SetpointState) (raws : List Int) :
    (readSetpointRun s raws).length = raws.length := by
  induction raws generalizing s with
  | nil => rfl
  | cons r rs ih => simp [readSetpointRun, ih]

theorem readSetpointRun_seeded_cons (a r : Int) (rs : List Int) :
    readSetpointRun { seeded := true, lastSetC := a } (r :: rs) =
      (if mappedSetpoint r ≠ a then
          [Effect.logMessage LOG_INFO (setpointLabel a (mappedSetpoint r))] else []) ::
        readSetpointRun { seeded := true, lastSetC := mappedSetpoint r } rs := by
  obtain ⟨h1, h2⟩ := readSetpointC_seeded a r
  simp only [readSetpointRun, h1, h2]

theorem readSetpointRun_seeded_index (raws : List Int) (c : Int) (k : Nat) (a b : Int)
    (ha : (raws.map mappedSetpoint)[k]? = some a)
    (hb : (raws.map mappedSetpoint)[k + 1]? = some b) :
    (readSetpointRun { seeded := true, lastSetC := c } raws)[k + 1]? =
      some (if b ≠ a then [Effect.logMessage LOG_INFO (setpointLabel a b)] else []) := by
  induction raws generalizing c k with
  | nil => simp at ha
  | cons r rs ih =>
    rw [readSetpointRun_seeded_cons]
    simp only [List.map_cons, List.getElem?_cons_succ] at hb ⊢
    cases k with
    | zero =>
      simp only [List.map_cons, List.getElem?_cons_zero, Option.some.injEq] at ha
      subst ha
      cases rs with
      | nil => simp at hb
      | cons r2 rs2 =>
        simp only [List.map_cons, List.getElem?_cons_zero, Option.some.injEq] at hb
        subst hb
        rw [readSetpointRun_seeded_cons]
        simp
    | succ k =>
      simp only [List.map_cons, List.getElem?_cons_succ] at ha
      exact ih _ k ha hb

theorem readSetpointRun_seeded_count (raws : List Int) (c : Int) :
    (readSetpointRun { seeded := true, lastSetC := c } raws).flatten.length =
      ((c :: raws.map mappedSetpoint).zip (raws.map mappedSetpoint)).countP
        (fun p => decide (p.1 ≠ p.2)) := by
  induction raws generalizing c with
  | nil => simp [readSetpointRun]
  | cons r rs ih =>
    rw [readSetpointRun_seeded_cons]
    simp only [List.flatten_cons, List.length_append, ih, List.map_cons, List.zip_cons_cons,
      List.countP_cons]
    by_cases h : mappedSetpoint r = c
    · simp [h]
    · have h2 : ¬ c = mappedSetpoint r := fun e => h e.symm
      simp [h, h2, Nat.add_comm]

theorem overStep_effects_log (s : MotorState) (now : Nat) (tC setC : Flt) :
    (overStep s now tC setC).2 = [] ∨
      (overStep s now tC setC).2 = [Effect.logMessage LOG_INFO "CHANGE - MOTOR ON"] := by
  unfold overStep
  by_cases h1 : Flt.gt tC setC = true
  · simp only [h1, if_true]
    split_ifs <;> simp
  · simp [h1]

theorem underStep_effects_log (s : MotorState) (now : Nat) (tC setC : Flt) :
    (underStep s now tC setC).2 = [] ∨
      (underStep s now tC setC).2 = [Effect.logMessage LOG_INFO "CHANGE - MOTOR OFF"] := by
  unfold underStep
  by_cases h1 : Flt.lt tC setC = true
  · simp only [h1, if_true]
    split_ifs <;> simp
  · simp [h1]

theorem applyStep_effects (s : MotorState) (target : Nat) :
    (applyStep s target).2 =
        (if target ≠ s.curPwm then
          [Effect.logMessage LOG_INFO (pwmLabel s.curPwm target)] else []) ∧
      (applyStep s target).1.curPwm = target := by
  unfold applyStep
  split_ifs with h
  · exact ⟨rfl, rfl⟩
  · simp only [ne_eq, not_not] at h
    exact ⟨rfl, h.symm⟩

theorem update_effects (s : MotorState) (now : Nat) (tC setC : Flt) :
    (updateMotorTwoSpeed s now tC setC).effects =
      (overStep s now tC setC).2 ++ (underStep (overStep s now tC setC).1 now tC setC).2 ++
        (if targetPwm (onOffStep s now tC setC).motorOn tC setC ≠ s.curPwm then
          [Effect.logMessage LOG_INFO
            (pwmLabel s.curPwm (targetPwm (onOffStep s now tC setC).motorOn tC setC))]
         else []) ++
        [Effect.analogWrite MOSFET_PIN (updateMotorTwoSpeed s now tC setC).pwm,
         Effect.digitalWrite LED_PIN (decide ((updateMotorTwoSpeed s now tC setC).pwm > 0))] := by
  have hc : (underStep (overStep s now tC setC).1 now tC setC).1.curPwm = s.curPwm := by
    rw [underStep_curPwm, overStep_curPwm]
  obtain ⟨h1, _⟩ := applyStep_effects (underStep (overStep s now tC setC).1 now tC setC).1
    (targetPwm (underStep (overStep s now tC setC).1 now tC setC).1.motorOn tC setC)
  rw [hc] at h1
  unfold updateMotorTwoSpeed onOffStep
  simp only [h1]

theorem readSetpointC_value (s : SetpointState) (r : Int) :
    (readSetpointC s r).value = Flt.ofInt (mappedSetpoint r) := by
  unfold readSetpointC
  simp only []
  split_ifs <;> rfl

theorem mappedSetpoint_range (r : Int) (h0 : 0 ≤ r) (h1 : r ≤ 1023) :
    15 ≤ mappedSetpoint r ∧ mappedSetpoint r ≤ 35 := by
  rw [mappedSetpoint_eq r h0]
  omega

theorem ADC_STEPS_eq : ADC_STEPS = Flt.fin 1023 := by
  have h : (1 <<< R_BITS : Nat) = 1024 := by decide
  unfold ADC_STEPS Flt.ofInt
  rw [h]
  norm_num

theorem readTemperatureC_eq (r1 r2 r3 : Int) :
    readTemperatureC r1 r2 r3 =
      Flt.fin ((((median3 r1 r2 r3 : Int) : ℚ) / 1023 * 5 - 1 / 2) * 100) := by
  unfold readTemperatureC
  rw [ADC_STEPS_eq]
  have h : (1023 : ℚ) ≠ 0 := by norm_num
  simp only [V_REF, Flt.ofInt, Flt.div, Flt.mul, Flt.sub, Flt.neg, Flt.add, h, if_false]
  congr 1
  ring

theorem tempC_mono (a b : Int) (h : a < b) :
    (((a : ℚ) / 1023 * 5 - 1 / 2) * 100) < (((b : ℚ) / 1023 * 5 - 1 / 2) * 100) := by
  have : (a : ℚ) < (b : ℚ) := by exact_mod_cast h
  linarith

theorem tempC_ge_zero_iff (a : Int) :
    (0 : ℚ) ≤ (((a : ℚ) / 1023 * 5 - 1 / 2) * 100) ↔ 103 ≤ a := by
  constructor
  · intro h
    by_contra hc
    have h2 : a ≤ 102 := by omega
    have : (a : ℚ) ≤ 102 := by exact_mod_cast h2
    linarith
  · intro h
    have : (103 : ℚ) ≤ (a : ℚ) := by exact_mod_cast h
    linarith

theorem tempC_le_fifty_iff (a : Int) :
    (((a : ℚ) / 1023 * 5 - 1 / 2) * 100) ≤ 50 ↔ a ≤ 204 := by
  constructor
  · intro h
    by_contra hc
    have h2 : 205 ≤ a := by omega
    have : (205 : ℚ) ≤ (a : ℚ) := by exact_mod_cast h2
    linarith
  · intro h
    have : (a : ℚ) ≤ 204 := by exact_mod_cast h
    linarith

theorem Flt.gt_false_of_le (a b : Flt) (h : Flt.le a b = true) : Flt.gt a b = false := by
  cases a <;> cases b <;> simp_all [Flt.lt, Flt.le, Flt.gt]

theorem update_timers (s : MotorState) (now : Nat) (tC setC : Flt) :
    (updateMotorTwoSpeed s now tC setC).state.overTiming = Flt.gt tC setC ∧
      (updateMotorTwoSpeed s now tC setC).state.underTiming = Flt.lt tC setC := by
  rw [update_state]
  cases hg : Flt.gt tC setC
  · cases hl : Flt.lt tC setC
    · rw [onOffStep_neither s now tC setC hg hl]
      exact ⟨rfl, rfl⟩
    · rw [onOffStep_under s now tC setC hl]
      exact ⟨rfl, rfl⟩
  · have hl : Flt.lt tC setC = false := Flt.lt_asymm_bool _ _ hg
    rw [onOffStep_over s now tC setC hg, hl]
    exact ⟨rfl, rfl⟩

theorem overStep_idle (s : MotorState) (now : Nat) (tC setC : Flt)
    (hidle : s.overTiming = false) :
    (overStep s now tC setC).2 = [] ∧ (overStep s now tC setC).1.motorOn = s.motorOn := by
  unfold overStep
  by_cases hg : Flt.gt tC setC = true
  · simp [hg, hidle, holdElapsed_self]
  · simp [hg]

theorem underStep_idle (s : MotorState) (now : Nat) (tC setC : Flt)
    (hidle : s.underTiming = false) :
    (underStep s now tC setC).2 = [] ∧ (underStep s now tC setC).1.motorOn = s.motorOn := by
  unfold underStep
  by_cases hl : Flt.lt tC setC = true
  · simp [hl, hidle, holdElapsed_self]
  · simp [hl]

theorem overStep_underTiming (s : MotorState) (now : Nat) (tC setC : Flt) :
    (overStep s now tC setC).1.underTiming = s.underTiming := by
  unfold overStep
  by_cases hg : Flt.gt tC setC = true
  · simp only [hg, if_true]
    split_ifs <;> simp_all
  · simp [hg]

theorem overStep_cases (s : MotorState) (now : Nat) (tC setC : Flt) :
    ((overStep s now tC setC).2 = [] ∧ (overStep s now tC setC).1.motorOn = s.motorOn) ∨
      ((overStep s now tC setC).2 = [Effect.logMessage LOG_INFO "CHANGE - MOTOR ON"] ∧
        Flt.gt tC setC = true ∧ s.motorOn = false ∧
        (overStep s now tC setC).1.motorOn = true) := by
  unfold overStep
  by_cases hg : Flt.gt tC setC = true
  · simp only [hg, if_true]
    split_ifs <;> simp_all
  · simp [hg]

theorem underStep_cases (s : MotorState) (now : Nat) (tC setC : Flt) :
    ((underStep s now tC setC).2 = [] ∧ (underStep s now tC setC).1.motorOn = s.motorOn) ∨
      ((underStep s now tC setC).2 = [Effect.logMessage LOG_INFO "CHANGE - MOTOR OFF"] ∧
        Flt.lt tC setC = true ∧ s.motorOn = true ∧
        (underStep s now tC setC).1.motorOn = false) := by
  unfold underStep
  by_cases hl : Flt.lt tC setC = true
  · simp only [hl, if_true]
    split_ifs <;> simp_all
  · simp [hl]

theorem update_fields_over (s : MotorState) (now : Nat) (tC setC : Flt)
    (hg : Flt.gt tC setC = true) :
    (updateMotorTwoSpeed s now tC setC).state.motorOn =
        (s.motorOn ||
          holdElapsed ULONG_BITS now (if s.overTiming then s.overStart else now)) ∧
      (updateMotorTwoSpeed s now tC setC).state.overStart =
        (if s.overTiming then s.overStart else now) ∧
      (updateMotorTwoSpeed s now tC setC).state.underTiming = false := by
  rw [update_state, onOffStep_over s now tC setC hg]
  exact ⟨rfl, rfl, rfl⟩

theorem update_fields_under (s : MotorState) (now : Nat) (tC setC : Flt)
    (hl : Flt.lt tC setC = true) :
    (updateMotorTwoSpeed s now tC setC).state.motorOn =
        (s.motorOn &&
          !holdElapsed ULONG_BITS now (if s.underTiming then s.underStart else now)) ∧
      (updateMotorTwoSpeed s now tC setC).state.underStart =
        (if s.underTiming then s.underStart else now) ∧
      (updateMotorTwoSpeed s now tC setC).state.overTiming = false := by
  rw [update_state, onOffStep_under s now tC setC hl]
  exact ⟨rfl, rfl, rfl⟩

theorem update_fields_neither (s : MotorState) (now : Nat) (tC setC : Flt)
    (hg : Flt.gt tC setC = false) (hl : Flt.lt tC setC = false) :
    (updateMotorTwoSpeed s now tC setC).state.motorOn = s.motorOn ∧
      (updateMotorTwoSpeed s now tC setC).state.overTiming = false ∧
      (updateMotorTwoSpeed s now tC setC).state.underTiming = false := by
  rw [update_state, onOffStep_neither s now tC setC hg hl]
  exact ⟨rfl, rfl, rfl⟩

/-- One call preserves the dwell invariant: a timer that can trigger the next
transition was started at a call made no earlier than `lo`, the clock value of
the last transition. Either the motor flag is unchanged, or it changes and the
call is made at least `HOLD_MS` after `lo`. -/
theorem dwell_step (s : MotorState) (lo hi t : Nat) (tC setC : Flt)
    (hlh : lo ≤ hi)
    (hov : s.overTiming = true → s.motorOn = false → lo ≤ s.overStart ∧ s.overStart ≤ hi)
    (hun : s.underTiming = true → s.motorOn = true → lo ≤ s.underStart ∧ s.underStart ≤ hi)
    (hht : hi ≤ t) (hw : t < 2 ^ ULONG_BITS) :
    ((updateMotorTwoSpeed s t tC setC).state.motorOn = s.motorOn ∧
      ((updateMotorTwoSpeed s t tC setC).state.overTiming = true →
        (updateMotorTwoSpeed s t tC setC).state.motorOn = false →
        lo ≤ (updateMotorTwoSpeed s t tC setC).state.overStart ∧
          (updateMotorTwoSpeed s t tC setC).state.overStart ≤ t) ∧
      ((updateMotorTwoSpeed s t tC setC).state.underTiming = true →
        (updateMotorTwoSpeed s t tC setC).state.motorOn = true →
        lo ≤ (updateMotorTwoSpeed s t tC setC).state.underStart ∧
          (updateMotorTwoSpeed s t tC setC).state.underStart ≤ t)) ∨
    ((updateMotorTwoSpeed s t tC setC).state.motorOn ≠ s.motorOn ∧ lo + HOLD_MS ≤ t ∧
      ((updateMotorTwoSpeed s t tC setC).state.overTiming = true →
        (updateMotorTwoSpeed s t tC setC).state.motorOn = false →
        t ≤ (updateMotorTwoSpeed s t tC setC).state.overStart ∧
          (updateMotorTwoSpeed s t tC setC).state.overStart ≤ t) ∧
      ((updateMotorTwoSpeed s t tC setC).state.underTiming = true →
        (updateMotorTwoSpeed s t tC setC).state.motorOn = true →
        t ≤ (updateMotorTwoSpeed s t tC setC).state.underStart ∧
          (updateMotorTwoSpeed s t tC setC).state.underStart ≤ t)) := by
  cases hg : Flt.gt tC setC
  · cases hl : Flt.lt tC setC
    · obtain ⟨m, o, u⟩ := update_fields_neither s t tC setC hg hl
      left
      refine ⟨m, ?_, ?_⟩
      · intro h; rw [o] at h; exact Bool.noConfusion h
      · intro h; rw [u] at h; exact Bool.noConfusion h
    · obtain ⟨m, st, o⟩ := update_fields_under s t tC setC hl
      cases hon : s.motorOn
      · left
        rw [hon] at m
        simp only [Bool.false_and] at m
        refine ⟨m, ?_, ?_⟩
        · intro h; rw [o] at h; exact Bool.noConfusion h
        · intro _ h; rw [m] at h; exact Bool.noConfusion h
      · rw [hon] at m
        simp only [Bool.true_and] at m
        have hst : lo ≤ (if s.underTiming then s.underStart else t) ∧
            (if s.underTiming then s.underStart else t) ≤ t := by
          cases hut : s.underTiming
          · simp only [Bool.false_eq_true, if_false]
            omega
          · simp only [if_true]
            have := hun hut hon
            omega
        rw [holdElapsed_small t _ hst.2 hw] at m
        by_cases he : HOLD_MS ≤ t - (if s.underTiming then s.underStart else t)
        · right
          have hd : decide (HOLD_MS ≤ t - (if s.underTiming = true then s.underStart else t))
              = true := by simpa using he
          rw [hd] at m
          simp only [Bool.not_true] at m
          refine ⟨by rw [m]; simp, by omega, ?_, ?_⟩
          · intro h; rw [o] at h; exact Bool.noConfusion h
          · intro _ h; rw [m] at h; exact Bool.noConfusion h
        · left
          have hd : decide (HOLD_MS ≤ t - (if s.underTiming = true then s.underStart else t))
              = false := by simpa using he
          rw [hd] at m
          simp only [Bool.not_false] at m
          refine ⟨m, ?_, ?_⟩
          · intro h; rw [o] at h; exact Bool.noConfusion h
          · intro _ _
            rw [st]
            exact hst
  · obtain ⟨m, st, u⟩ := update_fields_over s t tC setC hg
    cases hon : s.motorOn
    · rw [hon] at m
      simp only [Bool.false_or] at m
      have hst : lo ≤ (if s.overTiming then s.overStart else t) ∧
          (if s.overTiming then s.overStart else t) ≤ t := by
        cases hot : s.overTiming
        · simp only [Bool.false_eq_true, if_false]
          omega
        · simp only [if_true]
          have := hov hot hon
          omega
      rw [holdElapsed_small t _ hst.2 hw] at m
      by_cases he : HOLD_MS ≤ t - (if s.overTiming then s.overStart else t)
      · right
        have hd : decide (HOLD_MS ≤ t - (if s.overTiming = true then s.overStart else t))
            = true := by simpa using he
        rw [hd] at m
        refine ⟨by rw [m]; simp, by omega, ?_, ?_⟩
        · intro _ h; rw [m] at h; exact Bool.noConfusion h
        · intro h; rw [u] at h; exact Bool.noConfusion h
      · left
        have hd : decide (HOLD_MS ≤ t - (if s.overTiming = true then s.overStart else t))
            = false := by simpa using he
        rw [hd] at m
        refine ⟨m, ?_, ?_⟩
        · intro _ _
          rw [st]
          exact hst
        · intro h; rw [u] at h; exact Bool.noConfusion h
    · left
      rw [hon] at m
      simp only [Bool.true_or] at m
      refine ⟨m, ?_, ?_⟩
      · intro _ h; rw [m] at h; exact Bool.noConfusion h
      · intro h; rw [u] at h; exact Bool.noConfusion h

theorem dwell_chain (calls : List Call) (s : MotorState) (lo hi : Nat)
    (hlh : lo ≤ hi)
    (hov : s.overTiming = true → s.motorOn = false → lo ≤ s.overStart ∧ s.overStart ≤ hi)
    (hun : s.underTiming = true → s.motorOn = true → lo ≤ s.underStart ∧ s.underStart ≤ hi)
    (hmono : List.Sorted (· ≤ ·) (calls.map (fun c => c.now)))
    (hb : ∀ c ∈ calls, hi ≤ c.now ∧ c.now < 2 ^ ULONG_BITS) :
    List.Chain (fun a b => a + HOLD_MS ≤ b) lo (transitionTimes s calls) := by
  induction calls generalizing s lo hi with
  | nil => exact List.Chain.nil
  | cons c cs ih =>
    obtain ⟨hc1, hc2⟩ := hb c (List.mem_cons_self _ _)
    simp only [List.map_cons] at hmono
    obtain ⟨hle, hs⟩ := List.sorted_cons.mp hmono
    have hnext : ∀ d ∈ cs, c.now ≤ d.now ∧ d.now < 2 ^ ULONG_BITS := fun d hd =>
      ⟨hle d.now (List.mem_map_of_mem _ hd), (hb d (List.mem_cons_of_mem _ hd)).2⟩
    unfold transitionTimes
    rcases dwell_step s lo hi c.now c.tC c.setC hlh hov hun hc1 hc2 with
      ⟨m, o, u⟩ | ⟨m, hd, o, u⟩
    · rw [if_neg (not_not.mpr m), List.nil_append]
      exact ih _ lo c.now (by omega) o u hs hnext
    · rw [if_pos m, List.singleton_append]
      exact List.Chain.cons hd (ih _ c.now c.now (le_refl _) o u hs hnext)

theorem readSetpointRun_init_spec (raws : List Int) :
    (readSetpointRun SetpointState.init raws).length = raws.length ∧
    (raws ≠ [] → (readSetpointRun SetpointState.init raws)[0]? = some []) ∧
    (∀ (k : Nat) (a b : Int), (raws.map mappedSetpoint)[k]? = some a →
      (raws.map mappedSetpoint)[k + 1]? = some b →
      (readSetpointRun SetpointState.init raws)[k + 1]? =
        some (if b ≠ a then [Effect.logMessage LOG_INFO (setpointLabel a b)] else [])) ∧
    (readSetpointRun SetpointState.init raws).flatten.length =
      ((raws.map mappedSetpoint).zip (raws.map mappedSetpoint).tail).countP
        (fun p => decide (p.1 ≠ p.2)) := by
  cases raws with
  | nil => simp [readSetpointRun]
  | cons r rs =>
    obtain ⟨h1, h2⟩ := readSetpointC_init r
    have hrun : readSetpointRun SetpointState.init (r :: rs) =
        [] :: readSetpointRun { seeded := true, lastSetC := mappedSetpoint r } rs := by
      simp only [readSetpointRun, h1, h2]
    refine ⟨readSetpointRun_length _ _, fun _ => by rw [hrun]; simp, ?_, ?_⟩
    · intro k a b ha hb
      rw [hrun]
      simp only [List.map_cons, List.getElem?_cons_succ] at hb ⊢
      cases k with
      | zero =>
        simp only [List.map_cons, List.getElem?_cons_zero, Option.some.injEq] at ha
        subst ha
        cases rs with
        | nil => simp at hb
        | cons r2 rs2 =>
          simp only [List.map_cons, List.getElem?_cons_zero, Option.some.injEq] at hb
          subst hb
          rw [readSetpointRun_seeded_cons]
          simp
      | succ k =>
        simp only [List.map_cons, List.getElem?_cons_succ] at ha
        exact readSetpointRun_seeded_index rs _ k a b ha hb
    · rw [hrun]
      simp only [List.flatten_cons, List.nil_append, List.map_cons, List.tail_cons]
      exact readSetpointRun_seeded_count rs _

theorem toString_length_two (a : Int) (h1 : 15 ≤ a) (h2 : a ≤ 35) :
    (toString a).length = 2 := by
  interval_cases a <;> rfl

theorem setpointLabel_in_range (a b : Int) (ha1 : 15 ≤ a) (ha2 : a ≤ 35) (hb1 : 15 ≤ b)
    (hb2 : b ≤ 35) :
    setpointLabel a b =
      "CHANGE - SETPOINT - FROM " ++ toString a ++ " C TO " ++ toString b ++ " C" := by
  unfold setpointLabel
  rw [String.take_eq]
  have key : ∀ s : String, s.length ≤ 47 → (⟨List.take 47 s.data⟩ : String) = s := by
    intro s h
    cases s with
    | mk l =>
      have h2 : l.length ≤ 47 := h
      simp only [List.take_of_length_le h2]
  have hlen : ("CHANGE - SETPOINT - FROM " ++ toString a ++ " C TO " ++ toString b ++ " C").length
      ≤ 47 := by
    simp only [String.length_append, toString_length_two a ha1 ha2,
      toString_length_two b hb1 hb2]
    decide
  exact key _ hlen

theorem targetPwm_high (tC setC : Flt) (h : Flt.ge tC (highThresholdC setC) = true) :
    targetPwm true tC setC = PWM_HIGH := by
  simp [targetPwm, h]

/-! ### Claims -/

/-- C1: for all integers `a b c`, `median3 a b c` is the middle element of the
triple sorted in non-decreasing order; it is one of the three inputs and lies
between their minimum and their maximum. -/
theorem median3_is_median (a b c : Int) :
    (List.insertionSort (· ≤ ·) [a, b, c])[1]? = some (median3 a b c) ∧
    (median3 a b c = a ∨ median3 a b c = b ∨ median3 a b c = c) ∧
    min a (min b c) ≤ median3 a b c ∧ median3 a b c ≤ max a (max b c) := by
  refine ⟨?_, ?_, ?_, ?_⟩
  · by_cases h1 : a ≤ b <;> by_cases h2 : b ≤ c <;> by_cases h3 : a ≤ c <;>
      simp only [List.insertionSort, List.orderedInsert, h1, h2, h3, if_true, if_false] <;>
      unfold median3 <;> split_ifs <;>
      first
        | rfl
        | omega
        | (simp; omega)
  · unfold median3
    split_ifs <;> simp
  · unfold median3
    split_ifs <;> omega
  · unfold median3
    split_ifs <;> omega

/-- C2: from any state with the motor OFF and the over-timer inactive, for calls
`updateMotorTwoSpeed tC setC` with `tC > setC` at non-decreasing clock values
`t0 :: rest` that do not wrap, every call at a time `t` with `t - t0 < HOLD_MS`
returns 0 and leaves the motor OFF, and the first call with `t - t0 ≥ HOLD_MS`
turns the motor ON and returns `PWM_LOW` when `tC < setC * (1.0f +
MAX_OVER_RATIO)` and `PWM_HIGH` when `tC` is at or above it, the threshold being
the `float` value the code computes. A call is a split `t0 :: rest = pre ++ t :: post`: the calls `pre` are made
first, then the call at `t`. -/
theorem on_hold_time (s : MotorState) (tC setC : Flt) (t0 : Nat) (rest : List Nat)
    (hgt : Flt.gt tC setC = true) (hoff : s.motorOn = false) (hidle : s.overTiming = false)
    (hmono : List.Sorted (· ≤ ·) (t0 :: rest))
    (hwrap : ∀ u ∈ t0 :: rest, u < 2 ^ ULONG_BITS)
    (pre : List Nat) (t : Nat) (post : List Nat) (hsplit : t0 :: rest = pre ++ t :: post) :
    (t - t0 < HOLD_MS →
      (updateMotorTwoSpeed (motorRun s (constCalls pre tC setC)) t tC setC).pwm = 0 ∧
      (updateMotorTwoSpeed (motorRun s (constCalls pre tC setC)) t tC setC).state.motorOn
        = false) ∧
    (HOLD_MS ≤ t - t0 → (∀ u ∈ pre, u - t0 < HOLD_MS) →
      (updateMotorTwoSpeed (motorRun s (constCalls pre tC setC)) t tC setC).state.motorOn
        = true ∧
      (Flt.lt tC (highThresholdC setC) = true →
        (updateMotorTwoSpeed (motorRun s (constCalls pre tC setC)) t tC setC).pwm
          = PWM_LOW) ∧
      (Flt.ge tC (highThresholdC setC) = true →
        (updateMotorTwoSpeed (motorRun s (constCalls pre tC setC)) t tC setC).pwm
          = PWM_HIGH)) := by
  cases pre with
  | nil =>
    simp only [List.nil_append, List.cons.injEq] at hsplit
    obtain ⟨rfl, _⟩ := hsplit
    obtain ⟨h1, _, _, h4⟩ := over_call s t0 tC setC hoff hgt
    simp only [hidle, Bool.false_eq_true, if_false, holdElapsed_self] at h1 h4
    refine ⟨fun _ => ⟨?_, ?_⟩, fun h => ?_⟩
    · simpa [constCalls, motorRun, targetPwm] using h4
    · simpa [constCalls, motorRun] using h1
    · simp [HOLD_MS] at h
  | cons p pre =>
    simp only [List.cons_append, List.cons.injEq] at hsplit
    obtain ⟨rfl, hrest⟩ := hsplit
    subst hrest
    obtain ⟨hle, hsorted⟩ := List.sorted_cons.mp hmono
    have hcross : ∀ u ∈ pre, u ≤ t := fun u hu =>
      (List.pairwise_append.mp hsorted).2.2 u hu t (List.mem_cons_self _ _)
    have hmem : ∀ u ∈ pre, u ∈ pre ++ t :: post := fun u hu =>
      List.mem_append_left _ hu
    have htm : t ∈ pre ++ t :: post := List.mem_append_right _ (List.mem_cons_self _ _)
    obtain ⟨h1, h2, h3, _⟩ := over_call s t0 tC setC hoff hgt
    simp only [hidle, Bool.false_eq_true, if_false, holdElapsed_self] at h1 h3
    have hrun : motorRun s (constCalls (t0 :: pre) tC setC)
        = motorRun (updateMotorTwoSpeed s t0 tC setC).state (constCalls pre tC setC) := rfl
    rw [hrun]
    have key := fun hpre => on_hold_running (updateMotorTwoSpeed s t0 tC setC).state tC setC t0
      hgt h1 h2 h3 pre t hpre (hle t htm)
      (hwrap t (List.mem_cons_of_mem _ htm))
    refine ⟨fun hlt => ?_, fun hge hfirst => ?_⟩
    · obtain ⟨k1, k2⟩ := key (fun u hu =>
        ⟨hle u (hmem u hu), hwrap u (List.mem_cons_of_mem _ (hmem u hu)), by
          have := hcross u hu
          omega⟩)
      have hd : decide (HOLD_MS ≤ t - t0) = false := by simpa using hlt
      rw [hd] at k1 k2
      exact ⟨by simpa [targetPwm] using k2, k1⟩
    · obtain ⟨k1, k2⟩ := key (fun u hu =>
        ⟨hle u (hmem u hu), hwrap u (List.mem_cons_of_mem _ (hmem u hu)),
          hfirst u (List.mem_cons_of_mem _ hu)⟩)
      have hd : decide (HOLD_MS ≤ t - t0) = true := by simpa using hge
      rw [hd] at k1 k2
      exact ⟨k1, fun hlow => by rw [k2]; exact targetPwm_low tC setC hlow,
        fun hhigh => by rw [k2]; exact targetPwm_high tC setC hhigh⟩

/-- C2 at `setC = 25`, `tC = 26` from the initial state, with calls at clocks
0, 1000, 1999 and 2000: the call at 1999 returns 0 with the motor OFF, the call
at 2000 turns the motor ON and returns `PWM_LOW`. At `setC = 16` and
`tC = 0x1.266666p+4`, the `float` threshold itself, the call at 2000 returns
`PWM_HIGH`. -/
theorem on_hold_time_witness :
    ((updateMotorTwoSpeed (motorRun MotorState.init
        (constCalls [0, 1000] (Flt.fin 26) (Flt.fin 25))) 1999 (Flt.fin 26) (Flt.fin 25)).pwm = 0 ∧
      (updateMotorTwoSpeed (motorRun MotorState.init
        (constCalls [0, 1000] (Flt.fin 26) (Flt.fin 25))) 1999 (Flt.fin 26)
          (Flt.fin 25)).state.motorOn = false) ∧
    ((updateMotorTwoSpeed (motorRun MotorState.init
        (constCalls [0, 1000, 1999] (Flt.fin 26) (Flt.fin 25))) 2000 (Flt.fin 26)
          (Flt.fin 25)).state.motorOn = true ∧
      (updateMotorTwoSpeed (motorRun MotorState.init
        (constCalls [0, 1000, 1999] (Flt.fin 26) (Flt.fin 25))) 2000 (Flt.fin 26)
          (Flt.fin 25)).pwm = PWM_LOW) ∧
    (updateMotorTwoSpeed (motorRun MotorState.init
        (constCalls [0] (Flt.fin (9646899 / 524288)) (Flt.fin 16))) 2000
          (Flt.fin (9646899 / 524288)) (Flt.fin 16)).pwm = PWM_HIGH := by
  have hgt : Flt.gt (Flt.fin 26) (Flt.fin 25) = true := gt_fin _ _ (by norm_num)
  have hlow : Flt.lt (Flt.fin 26) (highThresholdC (Flt.fin 25)) = true := by
    rw [highThresholdC_25]
    simp only [Flt.lt]
    norm_num
  have hs : List.Sorted (· ≤ ·) (0 :: [1000, 1999, 2000]) := by simp
  have hw : ∀ u ∈ 0 :: [1000, 1999, 2000], u < 2 ^ ULONG_BITS := by simp [ULONG_BITS]
  have a := (on_hold_time MotorState.init (Flt.fin 26) (Flt.fin 25) 0 [1000, 1999, 2000]
    hgt rfl rfl hs hw [0, 1000] 1999 [2000] rfl).1 (by simp [HOLD_MS])
  have b := (on_hold_time MotorState.init (Flt.fin 26) (Flt.fin 25) 0 [1000, 1999, 2000]
    hgt rfl rfl hs hw [0, 1000, 1999] 2000 [] rfl).2 (by simp [HOLD_MS])
    (by simp [HOLD_MS])
  have hgt16 : Flt.gt (Flt.fin (9646899 / 524288)) (Flt.fin 16) = true :=
    gt_fin _ _ (by norm_num)
  have hhigh : Flt.ge (Flt.fin (9646899 / 524288)) (highThresholdC (Flt.fin 16)) = true := by
    rw [highThresholdC_16]
    simp [Flt.ge, Flt.le]
  have d := (on_hold_time MotorState.init (Flt.fin (9646899 / 524288)) (Flt.fin 16) 0 [2000]
    hgt16 rfl rfl (by simp) (by simp [ULONG_BITS]) [0] 2000 [] rfl).2 (by simp [HOLD_MS])
    (by simp [HOLD_MS])
  exact ⟨a, ⟨b.1, b.2.1 hlow⟩, d.2.2 hhigh⟩

/-- C3: from any state with the motor ON and the under-timer inactive, for calls
`updateMotorTwoSpeed tC setC` with `tC < setC` at non-decreasing clock values
`t0 :: rest` that do not wrap, the motor stays ON (non-zero PWM returned) at
every call with `t - t0 < HOLD_MS`, and the first call with `t - t0 ≥ HOLD_MS`
turns it OFF and returns 0. If, after such calls at `b0 :: bs` still within the
hold time, one call with `tC >= setC` is made, it leaves the motor ON with the
under-timer reset, and for the calls with `tC < setC` that follow, at
`t0 :: rest`, the hold time is counted from `t0`: the time spent under the
setpoint before the interruption does not count. -/
theorem off_hold_time_with_reset (s : MotorState) (tC setC : Flt)
    (hlt : Flt.lt tC setC = true) (hon : s.motorOn = true) (hidle : s.underTiming = false) :
    (∀ (t0 : Nat) (rest : List Nat), List.Sorted (· ≤ ·) (t0 :: rest) →
      (∀ u ∈ t0 :: rest, u < 2 ^ ULONG_BITS) →
      ∀ (pre : List Nat) (t : Nat) (post : List Nat), t0 :: rest = pre ++ t :: post →
      (t - t0 < HOLD_MS →
        (updateMotorTwoSpeed (motorRun s (constCalls pre tC setC)) t tC setC).state.motorOn
          = true ∧
        (updateMotorTwoSpeed (motorRun s (constCalls pre tC setC)) t tC setC).pwm ≠ 0) ∧
      (HOLD_MS ≤ t - t0 → (∀ u ∈ pre, u - t0 < HOLD_MS) →
        (updateMotorTwoSpeed (motorRun s (constCalls pre tC setC)) t tC setC).state.motorOn
          = false ∧
        (updateMotorTwoSpeed (motorRun s (constCalls pre tC setC)) t tC setC).pwm = 0)) ∧
    (∀ (b0 : Nat) (bs : List Nat) (ti : Nat) (tCi : Flt) (t0 : Nat) (rest : List Nat),
      List.Sorted (· ≤ ·) (b0 :: bs) →
      (∀ u ∈ b0 :: bs, u < 2 ^ ULONG_BITS ∧ u - b0 < HOLD_MS) →
      Flt.ge tCi setC = true →
      List.Sorted (· ≤ ·) (t0 :: rest) →
      (∀ u ∈ t0 :: rest, u < 2 ^ ULONG_BITS) →
      (updateMotorTwoSpeed (motorRun s (constCalls (b0 :: bs) tC setC))
          ti tCi setC).state.motorOn = true ∧
      (updateMotorTwoSpeed (motorRun s (constCalls (b0 :: bs) tC setC))
          ti tCi setC).state.underTiming = false ∧
      ∀ (pre : List Nat) (t : Nat) (post : List Nat), t0 :: rest = pre ++ t :: post →
      (t - t0 < HOLD_MS →
        (updateMotorTwoSpeed
          (motorRun s (constCalls (b0 :: bs) tC setC ++
            { now := ti, tC := tCi, setC := setC } :: constCalls pre tC setC))
          t tC setC).state.motorOn = true ∧
        (updateMotorTwoSpeed
          (motorRun s (constCalls (b0 :: bs) tC setC ++
            { now := ti, tC := tCi, setC := setC } :: constCalls pre tC setC))
          t tC setC).pwm ≠ 0) ∧
      (HOLD_MS ≤ t - t0 → (∀ u ∈ pre, u - t0 < HOLD_MS) →
        (updateMotorTwoSpeed
          (motorRun s (constCalls (b0 :: bs) tC setC ++
            { now := ti, tC := tCi, setC := setC } :: constCalls pre tC setC))
          t tC setC).state.motorOn = false ∧
        (updateMotorTwoSpeed
          (motorRun s (constCalls (b0 :: bs) tC setC ++
            { now := ti, tC := tCi, setC := setC } :: constCalls pre tC setC))
          t tC setC).pwm = 0)) := by
  constructor
  · intro t0 rest hmono hwrap pre t post hsplit
    exact off_hold_core s tC setC t0 rest hlt hon hidle hmono hwrap pre t post hsplit
  · intro b0 bs ti tCi t0 rest hbm hb hge hmono hwrap
    have hrunOn := under_run_stays_on s tC setC b0 bs hlt hon hidle hbm hb
    obtain ⟨i1, i2⟩ := interrupt_resets (motorRun s (constCalls (b0 :: bs) tC setC))
      ti tCi setC hrunOn hge
    refine ⟨i1, i2, ?_⟩
    intro pre t post hsplit
    rw [motorRun_append]
    exact off_hold_core _ tC setC t0 rest hlt i1 i2 hmono hwrap pre t post hsplit

/-- C3 at `setC = 25`, `tC = 24`, motor ON at `PWM_LOW`: under-calls at clocks 0
and 1500, an interruption with `tC = 25` at 1600, then under-calls at 1700,
3000 and 3700. The call at 3000 still returns a non-zero PWM, 3000 ms after the
first under-call; the call at 3700, 2000 ms after the restart, turns the motor
OFF and returns 0. -/
theorem off_hold_time_with_reset_witness :
    ((updateMotorTwoSpeed
        (motorRun { motorOn := true, curPwm := 100, overTiming := false, underTiming := false,
                    overStart := 0, underStart := 0 }
          (constCalls (0 :: [1500]) (Flt.fin 24) (Flt.fin 25) ++
            { now := 1600, tC := Flt.fin 25, setC := Flt.fin 25 } ::
              constCalls [1700] (Flt.fin 24) (Flt.fin 25)))
        3000 (Flt.fin 24) (Flt.fin 25)).pwm ≠ 0) ∧
    ((updateMotorTwoSpeed
        (motorRun { motorOn := true, curPwm := 100, overTiming := false, underTiming := false,
                    overStart := 0, underStart := 0 }
          (constCalls (0 :: [1500]) (Flt.fin 24) (Flt.fin 25) ++
            { now := 1600, tC := Flt.fin 25, setC := Flt.fin 25 } ::
              constCalls [1700, 3000] (Flt.fin 24) (Flt.fin 25)))
        3700 (Flt.fin 24) (Flt.fin 25)).pwm = 0) := by
  have h := (off_hold_time_with_reset
    { motorOn := true, curPwm := 100, overTiming := false, underTiming := false,
      overStart := 0, underStart := 0 } (Flt.fin 24) (Flt.fin 25)
    (lt_fin _ _ (by norm_num)) rfl rfl).2 0 [1500] 1600 (Flt.fin 25) 1700 [3000, 3700]
    (by simp) (by simp [ULONG_BITS, HOLD_MS]) (by simp [Flt.ge, Flt.le])
    (by simp) (by simp [ULONG_BITS])
  exact ⟨((h.2.2 [1700] 3000 [3700] rfl).1 (by simp [HOLD_MS])).2,
    ((h.2.2 [1700, 3000] 3700 [] rfl).2 (by simp [HOLD_MS]) (by simp [HOLD_MS])).2⟩

/-- C4: in every call of `updateMotorTwoSpeed`, whatever the state, the clock and
the previously applied PWM, the motor flag after the call is the one left by the
ON/OFF step; if it is true the PWM returned is `PWM_HIGH` when
`tC >= setC * (1.0f + MAX_OVER_RATIO)` and `PWM_LOW` otherwise, and if it is
false the PWM returned is 0. The threshold is the `float` value the code
computes: 28.75 at `setC = 25`, and `0x1.266666p+4` (just below 18.4) at
`setC = 16`, where a temperature equal to it already gives `PWM_HIGH`. With the
motor ON and `setC = 25`, a call with `tC = 30` returns `PWM_HIGH` and the very
next call with `tC = 27` returns `PWM_LOW`. -/
theorem speed_selection_immediate (s : MotorState) (now : Nat) (tC setC : Flt) :
    (updateMotorTwoSpeed s now tC setC).state.motorOn = (onOffStep s now tC setC).motorOn ∧
    ((onOffStep s now tC setC).motorOn = true →
      (updateMotorTwoSpeed s now tC setC).pwm =
        if Flt.ge tC (highThresholdC setC) then PWM_HIGH else PWM_LOW) ∧
    ((onOffStep s now tC setC).motorOn = false →
      (updateMotorTwoSpeed s now tC setC).pwm = 0) ∧
    (s.motorOn = true → ∀ next : Nat,
      (updateMotorTwoSpeed s now (Flt.fin 30) (Flt.fin 25)).pwm = PWM_HIGH ∧
      (updateMotorTwoSpeed (updateMotorTwoSpeed s now (Flt.fin 30) (Flt.fin 25)).state
        next (Flt.fin 27) (Flt.fin 25)).pwm = PWM_LOW) ∧
    highThresholdC (Flt.fin 25) = Flt.fin (115 / 4) ∧
    highThresholdC (Flt.fin 16) = Flt.fin (9646899 / 524288) ∧
    (s.motorOn = true →
      (updateMotorTwoSpeed s now (Flt.fin (9646899 / 524288)) (Flt.fin 16)).pwm = PWM_HIGH) := by
  refine ⟨by rw [update_state], ?_, ?_, ?_, highThresholdC_25, highThresholdC_16, ?_⟩
  · intro h
    rw [update_pwm, h]
    rfl
  · intro h
    rw [update_pwm, h]
    rfl
  · intro hon next
    have g1 : Flt.gt (Flt.fin 30) (Flt.fin 25) = true := gt_fin _ _ (by norm_num)
    have g2 : Flt.gt (Flt.fin 27) (Flt.fin 25) = true := gt_fin _ _ (by norm_num)
    constructor
    · rw [update_pwm, onOffStep_over _ _ _ _ g1]
      simp [hon, targetPwm, ge_30_threshold_25]
    · rw [update_pwm, onOffStep_over _ _ _ _ g2, update_state, onOffStep_over _ _ _ _ g1]
      simp [hon, targetPwm, ge_27_threshold_25]
  · intro hon
    have g : Flt.gt (Flt.fin (9646899 / 524288)) (Flt.fin 16) = true :=
      gt_fin _ _ (by norm_num)
    rw [update_pwm, onOffStep_over _ _ _ _ g]
    simp [hon, targetPwm, highThresholdC_16, Flt.ge, Flt.le]

/-- C4 at a concrete state: the motor is ON at `PWM_LOW` with both timers idle;
`tC = 30` at clock 0 gives `PWM_HIGH`, and `tC = 27` one millisecond later gives
`PWM_LOW`; at `setC = 16` the temperature `0x1.266666p+4` gives `PWM_HIGH`. -/
theorem speed_selection_immediate_witness :
    ((updateMotorTwoSpeed
        { motorOn := true, curPwm := 100, overTiming := false, underTiming := false,
          overStart := 0, underStart := 0 } 0 (Flt.fin 30) (Flt.fin 25)).pwm = PWM_HIGH ∧
    (updateMotorTwoSpeed
        (updateMotorTwoSpeed
          { motorOn := true, curPwm := 100, overTiming := false, underTiming := false,
            overStart := 0, underStart := 0 } 0 (Flt.fin 30) (Flt.fin 25)).state
        1 (Flt.fin 27) (Flt.fin 25)).pwm = PWM_LOW) ∧
    (updateMotorTwoSpeed
        { motorOn := true, curPwm := 100, overTiming := false, underTiming := false,
          overStart := 0, underStart := 0 } 0 (Flt.fin (9646899 / 524288))
        (Flt.fin 16)).pwm = PWM_HIGH :=
  ⟨(speed_selection_immediate
      { motorOn := true, curPwm := 100, overTiming := false, underTiming := false,
        overStart := 0, underStart := 0 } 0 (Flt.fin 30) (Flt.fin 25)).2.2.2.1 rfl 1,
   (speed_selection_immediate
      { motorOn := true, curPwm := 100, overTiming := false, underTiming := false,
        overStart := 0, underStart := 0 } 0 (Flt.fin 30) (Flt.fin 25)).2.2.2.2.2.2 rfl⟩

/-- C5: `checkRanges tC setC` returns true exactly when neither argument is NaN,
`MIN_SAFE_TEMPERATURE_VALUE ≤ tC ≤ MAX_SAFE_TEMPERATURE_VALUE` (0..50) and
`POT_MIN_TEMPERATURE_VALUE ≤ setC ≤ POT_MAX_TEMPERATURE_VALUE` (15..35), bounds
inclusive; on every other pair of inputs it returns false. -/
theorem checkRanges_iff (tC setC : Flt) :
    ((checkRanges tC setC).1 = true ↔
      (tC.isnan = false ∧ setC.isnan = false ∧
        Flt.le (Flt.ofInt MIN_SAFE_TEMPERATURE_VALUE) tC = true ∧
        Flt.le tC (Flt.ofInt MAX_SAFE_TEMPERATURE_VALUE) = true ∧
        Flt.le (Flt.ofInt POT_MIN_TEMPERATURE_VALUE) setC = true ∧
        Flt.le setC (Flt.ofInt POT_MAX_TEMPERATURE_VALUE) = true)) ∧
    ((checkRanges tC setC).1 = true ↔
      ∃ t c : ℚ, tC = Flt.fin t ∧ setC = Flt.fin c ∧ 0 ≤ t ∧ t ≤ 50 ∧ 15 ≤ c ∧ c ≤ 35) := by
  rw [checkRanges_fst]
  constructor
  · cases tC <;> cases setC <;>
      simp [Flt.isnan, Flt.lt, Flt.gt, Flt.le, Flt.ofInt,
        MIN_SAFE_TEMPERATURE_VALUE, MAX_SAFE_TEMPERATURE_VALUE,
        POT_MIN_TEMPERATURE_VALUE, POT_MAX_TEMPERATURE_VALUE]
    tauto
  · cases tC <;> cases setC <;>
      simp [Flt.isnan, Flt.lt, Flt.gt, Flt.le, Flt.ofInt,
        MIN_SAFE_TEMPERATURE_VALUE, MAX_SAFE_TEMPERATURE_VALUE,
        POT_MIN_TEMPERATURE_VALUE, POT_MAX_TEMPERATURE_VALUE]
    tauto

/-- C6: the value returned by `readSetpointC` is the mapped setpoint
`r * (POT_MAX - POT_MIN) / 1023 + POT_MIN` (truncating division); for every raw
dial value in `[0, 1023]` it lies in `[15, 35]`, and it is non-decreasing in the
raw value on that range. -/
theorem setpoint_range_mono :
    (∀ s r, (readSetpointC s r).value = Flt.ofInt (mappedSetpoint r)) ∧
    (∀ r : Int, mappedSetpoint r
        = Int.tdiv (r * (POT_MAX_TEMPERATURE_VALUE - POT_MIN_TEMPERATURE_VALUE)) 1023
          + POT_MIN_TEMPERATURE_VALUE) ∧
    (∀ r : Int, 0 ≤ r → r ≤ 1023 →
      POT_MIN_TEMPERATURE_VALUE ≤ mappedSetpoint r ∧
        mappedSetpoint r ≤ POT_MAX_TEMPERATURE_VALUE) ∧
    (∀ r1 r2 : Int, 0 ≤ r1 → r1 ≤ r2 → r2 ≤ 1023 → mappedSetpoint r1 ≤ mappedSetpoint r2) := by
  refine ⟨?_, ?_, ?_, ?_⟩
  · intro s r
    unfold readSetpointC
    simp only []
    split_ifs <;> rfl
  · intro r
    simp [mappedSetpoint, map]
  · intro r h0 h1
    rw [mappedSetpoint_eq r h0]
    unfold POT_MIN_TEMPERATURE_VALUE POT_MAX_TEMPERATURE_VALUE
    omega
  · intro r1 r2 h0 h12 h1
    rw [mappedSetpoint_eq r1 h0, mappedSetpoint_eq r2 (by omega)]
    omega

/-- C6 at the raw dial values 0, 512 and 1023. -/
theorem setpoint_range_mono_witness :
    (POT_MIN_TEMPERATURE_VALUE ≤ mappedSetpoint 512 ∧
      mappedSetpoint 512 ≤ POT_MAX_TEMPERATURE_VALUE) ∧
    mappedSetpoint 0 ≤ mappedSetpoint 1023 :=
  ⟨setpoint_range_mono.2.2.1 512 (by decide) (by decide),
   setpoint_range_mono.2.2.2 0 1023 (by decide) (by decide) (by decide)⟩

/-- C7: for successive calls of `readSetpointC` from the unseeded tracker on any
sequence of dial readings, the first call logs nothing; the call after a call
whose mapped setpoint was `a`, itself mapping to `b`, logs exactly one INFO
message when `b ≠ a` and nothing when `b = a`. The message is the first 47
characters of `CHANGE - SETPOINT - FROM a C TO b C`, with the previous value
after FROM and the new one after TO, and it is that whole text when the dial
readings are in `[0, 1023]`. The total number of notifications is the number of
adjacent pairs of calls with different mapped setpoints. -/
theorem setpoint_change_notifications (raws : List Int) :
    (readSetpointRun SetpointState.init raws).length = raws.length ∧
    (raws ≠ [] → (readSetpointRun SetpointState.init raws)[0]? = some []) ∧
    (∀ (k : Nat) (a b : Int), (raws.map mappedSetpoint)[k]? = some a →
      (raws.map mappedSetpoint)[k + 1]? = some b →
      (readSetpointRun SetpointState.init raws)[k + 1]? =
        some (if b ≠ a then
          [Effect.logMessage LOG_INFO
            (("CHANGE - SETPOINT - FROM " ++ toString a ++ " C TO " ++ toString b ++
              " C").take 47)]
          else [])) ∧
    ((∀ r ∈ raws, 0 ≤ r ∧ r ≤ 1023) →
      ∀ (k : Nat) (a b : Int), (raws.map mappedSetpoint)[k]? = some a →
      (raws.map mappedSetpoint)[k + 1]? = some b →
      (readSetpointRun SetpointState.init raws)[k + 1]? =
        some (if b ≠ a then
          [Effect.logMessage LOG_INFO
            ("CHANGE - SETPOINT - FROM " ++ toString a ++ " C TO " ++ toString b ++ " C")]
          else [])) ∧
    (readSetpointRun SetpointState.init raws).flatten.length =
      ((raws.map mappedSetpoint).zip (raws.map mappedSetpoint).tail).countP
        (fun p => decide (p.1 ≠ p.2)) := by
  obtain ⟨h1, h2, h3, h4⟩ := readSetpointRun_init_spec raws
  refine ⟨h1, h2, h3, ?_, h4⟩
  intro hr k a b ha hb
  have hrange : ∀ x ∈ raws.map mappedSetpoint, 15 ≤ x ∧ x ≤ 35 := by
    intro x hx
    obtain ⟨r, hmem, rfl⟩ := List.mem_map.mp hx
    exact mappedSetpoint_range r (hr r hmem).1 (hr r hmem).2
  obtain ⟨a1, a2⟩ := hrange a (List.getElem?_mem ha)
  obtain ⟨b1, b2⟩ := hrange b (List.getElem?_mem hb)
  rw [h3 k a b ha hb, setpointLabel_in_range a b a1 a2 b1 b2]

/-- C7 on the dial readings 0, 10, 60, 60, 1023 (mapped to 15, 15, 16, 16, 35):
the third call logs `CHANGE - SETPOINT - FROM 15 C TO 16 C` and the fourth call
logs nothing. -/
theorem setpoint_change_notifications_witness :
    (readSetpointRun SetpointState.init [0, 10, 60, 60, 1023])[2]? =
        some [Effect.logMessage LOG_INFO "CHANGE - SETPOINT - FROM 15 C TO 16 C"] ∧
    (readSetpointRun SetpointState.init [0, 10, 60, 60, 1023])[3]? = some [] :=
  ⟨(setpoint_change_notifications [0, 10, 60, 60, 1023]).2.2.2.1 (by decide) 1 15 16
      (by decide) (by decide),
   (setpoint_change_notifications [0, 10, 60, 60, 1023]).2.2.1 2 16 16 (by decide) (by decide)⟩

/-- C8: in the initial state and after every call of `updateMotorTwoSpeed`, from
any state, at any clock value and on any inputs, the applied PWM `curPwm` is 0
exactly when the motor flag is false, and the value returned is the applied PWM
and is one of 0, `PWM_LOW`, `PWM_HIGH`; so the invariant holds in every state
reached from the initial one. -/
theorem pwm_zero_iff_motor_off :
    (MotorState.init.curPwm = 0 ↔ MotorState.init.motorOn = false) ∧
    (∀ (s : MotorState) (now : Nat) (tC setC : Flt),
      ((updateMotorTwoSpeed s now tC setC).state.curPwm = 0 ↔
        (updateMotorTwoSpeed s now tC setC).state.motorOn = false) ∧
      (updateMotorTwoSpeed s now tC setC).pwm =
        (updateMotorTwoSpeed s now tC setC).state.curPwm ∧
      ((updateMotorTwoSpeed s now tC setC).pwm = 0 ∨
        (updateMotorTwoSpeed s now tC setC).pwm = PWM_LOW ∨
        (updateMotorTwoSpeed s now tC setC).pwm = PWM_HIGH)) ∧
    (∀ calls : List Call,
      (motorRun MotorState.init calls).curPwm = 0 ↔
        (motorRun MotorState.init calls).motorOn = false) := by
  refine ⟨by simp [MotorState.init], ?_, ?_⟩
  · intro s now tC setC
    refine ⟨?_, rfl, ?_⟩
    · rw [update_state]
      exact (targetPwm_cases _ _ _).1
    · rw [update_pwm]
      exact (targetPwm_cases _ _ _).2
  · intro calls
    exact motorRun_invariant _ _ (by simp [MotorState.init])

/-- C9: once a call `updateMotorTwoSpeed tC setC` has left the controller in a
state that is stable for these inputs (motor ON and `tC > setC`, motor OFF and
`tC < setC`, or `tC = setC`), every further call with the same `tC` and `setC`,
after any number of such calls and at any clock values, performs the two output
writes and nothing else (so it logs no MOTOR ON, MOTOR OFF or PWM change
message) and returns the same PWM as that call. -/
theorem idempotent_when_stable (s : MotorState) (now : Nat) (tC setC : Flt)
    (hst : (Flt.gt tC setC = true ∧ (updateMotorTwoSpeed s now tC setC).state.motorOn = true) ∨
      (Flt.lt tC setC = true ∧ (updateMotorTwoSpeed s now tC setC).state.motorOn = false) ∨
      tC = setC)
    (earlier : List Nat) (t : Nat) :
    (updateMotorTwoSpeed
        (motorRun (updateMotorTwoSpeed s now tC setC).state (constCalls earlier tC setC))
        t tC setC).effects =
      [Effect.analogWrite MOSFET_PIN (updateMotorTwoSpeed s now tC setC).pwm,
       Effect.digitalWrite LED_PIN (decide ((updateMotorTwoSpeed s now tC setC).pwm > 0))] ∧
    (∀ e ∈ (updateMotorTwoSpeed
        (motorRun (updateMotorTwoSpeed s now tC setC).state (constCalls earlier tC setC))
        t tC setC).effects, e.isLog = false) ∧
    (updateMotorTwoSpeed
        (motorRun (updateMotorTwoSpeed s now tC setC).state (constCalls earlier tC setC))
        t tC setC).pwm = (updateMotorTwoSpeed s now tC setC).pwm := by
  have hp : (updateMotorTwoSpeed s now tC setC).state.curPwm =
      targetPwm (updateMotorTwoSpeed s now tC setC).state.motorOn tC setC := by
    rw [update_state]
  obtain ⟨hm, hc⟩ := stable_run tC setC earlier _ hst hp
  obtain ⟨he, hpw, _, _⟩ := stable_step
    (motorRun (updateMotorTwoSpeed s now tC setC).state (constCalls earlier tC setC))
    t tC setC (by rw [hm]; exact hst) (by rw [hm, hc]; exact hp)
  rw [hc] at he hpw
  have hr : (updateMotorTwoSpeed s now tC setC).pwm
      = (updateMotorTwoSpeed s now tC setC).state.curPwm := rfl
  rw [hr]
  refine ⟨he, ?_, hpw⟩
  rw [he]
  intro e hmem
  simp only [List.mem_cons, List.mem_singleton, List.not_mem_nil, or_false] at hmem
  rcases hmem with rfl | rfl <;> rfl

/-- C9 at `tC = setC = 25` from the initial state: the first call returns 0, and
so does a call at clock 7000 made after further calls at clocks 1000 and 5000,
with no message logged. -/
theorem idempotent_when_stable_witness :
    (updateMotorTwoSpeed
        (motorRun (updateMotorTwoSpeed MotorState.init 0 (Flt.fin 25) (Flt.fin 25)).state
          (constCalls [1000, 5000] (Flt.fin 25) (Flt.fin 25)))
        7000 (Flt.fin 25) (Flt.fin 25)).effects =
      [Effect.analogWrite MOSFET_PIN
         (updateMotorTwoSpeed MotorState.init 0 (Flt.fin 25) (Flt.fin 25)).pwm,
       Effect.digitalWrite LED_PIN
         (decide ((updateMotorTwoSpeed MotorState.init 0 (Flt.fin 25) (Flt.fin 25)).pwm > 0))] :=
  (idempotent_when_stable MotorState.init 0 (Flt.fin 25) (Flt.fin 25)
    (Or.inr (Or.inr rfl)) [1000, 5000] 7000).1

/-- C10: on a `w`-bit unsigned clock, if an interval started at true time `s` and
the true time is now `n` with `0 ≤ n - s < 2 ^ w`, the duration check of
`updateMotorTwoSpeed` applied to the wrapped counter values holds exactly when
`n - s ≥ HOLD_MS`, also when the counter has wrapped in between. The check is
the unsigned subtraction `(now - start) mod 2 ^ w` compared with `HOLD_MS`. -/
theorem wraparound_tolerance (w s n : Nat) (hsn : s ≤ n) (hd : n - s < 2 ^ w) :
    (holdElapsed w (n % 2 ^ w) (s % 2 ^ w) = true ↔ HOLD_MS ≤ n - s) ∧
    (holdElapsed w (n % 2 ^ w) (s % 2 ^ w) = true ↔
      (HOLD_MS : Int) ≤ (((n % 2 ^ w : Nat) : Int) - ((s % 2 ^ w : Nat) : Int)) % (2 ^ w : Int)) := by
  have h1 : holdElapsed w (n % 2 ^ w) (s % 2 ^ w) = true ↔ HOLD_MS ≤ n - s := by
    unfold holdElapsed
    rw [usub_eq_sub w s n hsn hd]
    simp
  refine ⟨h1, ?_⟩
  rw [← usub_int]
  unfold holdElapsed
  simp

/-- C10 at a wrapped counter: the interval starts 500 ms before the 32-bit
counter overflows and is checked 2000 ms later, when the counter reads 1500. -/
theorem wraparound_tolerance_witness :
    (2 ^ 32 + 1500) % 2 ^ 32 < (2 ^ 32 - 500) % 2 ^ 32 ∧
    holdElapsed 32 ((2 ^ 32 + 1500) % 2 ^ 32) ((2 ^ 32 - 500) % 2 ^ 32) = true :=
  ⟨by norm_num,
   (wraparound_tolerance 32 (2 ^ 32 - 500) (2 ^ 32 + 1500) (by norm_num) (by norm_num)).1.mpr
     (by norm_num [HOLD_MS])⟩

/-- C11: the hold time of the code is `HOLD_MS = 2000` ms, not the 1 second of
the doc comment of `updateMotorTwoSpeed`. From the initial state with `tC = 26`,
`setC = 25`, the call made 1000 ms after the first call leaves the motor OFF and
returns 0; the motor is turned ON only by the call made 2000 ms after it.
Symmetrically, a motor that is ON with `tC = 24`, `setC = 25` is still ON at
`PWM_LOW` 1000 ms after the first call and is turned OFF at 2000 ms. -/
theorem hold_time_is_two_seconds :
    HOLD_MS = 2000 ∧
    (updateMotorTwoSpeed
        (motorRun MotorState.init (constCalls [0] (Flt.fin 26) (Flt.fin 25)))
        1000 (Flt.fin 26) (Flt.fin 25)).state.motorOn = false ∧
    (updateMotorTwoSpeed
        (motorRun MotorState.init (constCalls [0] (Flt.fin 26) (Flt.fin 25)))
        1000 (Flt.fin 26) (Flt.fin 25)).pwm = 0 ∧
    (updateMotorTwoSpeed
        (motorRun MotorState.init (constCalls [0, 1000] (Flt.fin 26) (Flt.fin 25)))
        2000 (Flt.fin 26) (Flt.fin 25)).state.motorOn = true ∧
    (updateMotorTwoSpeed
        (motorRun { motorOn := true, curPwm := 100, overTiming := false, underTiming := false,
                    overStart := 0, underStart := 0 }
          (constCalls [0] (Flt.fin 24) (Flt.fin 25)))
        1000 (Flt.fin 24) (Flt.fin 25)).state.motorOn = true ∧
    (updateMotorTwoSpeed
        (motorRun { motorOn := true, curPwm := 100, overTiming := false, underTiming := false,
                    overStart := 0, underStart := 0 }
          (constCalls [0] (Flt.fin 24) (Flt.fin 25)))
        1000 (Flt.fin 24) (Flt.fin 25)).pwm = PWM_LOW ∧
    (updateMotorTwoSpeed
        (motorRun { motorOn := true, curPwm := 100, overTiming := false, underTiming := false,
                    overStart := 0, underStart := 0 }
          (constCalls [0, 1000] (Flt.fin 24) (Flt.fin 25)))
        2000 (Flt.fin 24) (Flt.fin 25)).state.motorOn = false := by
  refine ⟨rfl, ?_, ?_, ?_, ?_, ?_, ?_⟩ <;>
    norm_num [constCalls, motorRun, updateMotorTwoSpeed, overStep, underStep, applyStep,
      targetPwm, highThresholdC_25, Flt.gt, Flt.lt, Flt.ge, Flt.le, holdElapsed, usub,
      HOLD_MS, ULONG_BITS, MotorState.init, PWM_LOW, PWM_HIGH]

/-- C12: `checkRanges` emits no diagnostic when it returns true and exactly one
ERROR-level diagnostic when it returns false: "TEMPERATURE NaN" with `tC` when
`tC` is NaN; otherwise "SETPOINT NaN" with `setC` when `setC` is NaN; otherwise
"TEMP OUT OF SAFE RANGE" with `tC` when `tC` is outside the safe range; otherwise
"SETPOINT OUT OF ALLOWED RANGE" with `setC` when `setC` is outside its range. -/
theorem checkRanges_diagnostic (tC setC : Flt) :
    ((checkRanges tC setC).1 = true → (checkRanges tC setC).2 = []) ∧
    ((checkRanges tC setC).1 = false →
      ∃ (message : String) (value : Flt),
        (checkRanges tC setC).2 = [Effect.logValue LOG_ERROR message value]) ∧
    (tC.isnan = true →
      checkRanges tC setC = (false, [Effect.logValue LOG_ERROR "TEMPERATURE NaN" tC])) ∧
    (tC.isnan = false → setC.isnan = true →
      checkRanges tC setC = (false, [Effect.logValue LOG_ERROR "SETPOINT NaN" setC])) ∧
    (tC.isnan = false → setC.isnan = false →
      (Flt.lt tC (Flt.ofInt MIN_SAFE_TEMPERATURE_VALUE) = true ∨
        Flt.gt tC (Flt.ofInt MAX_SAFE_TEMPERATURE_VALUE) = true) →
      checkRanges tC setC =
        (false, [Effect.logValue LOG_ERROR "TEMP OUT OF SAFE RANGE" tC])) ∧
    (tC.isnan = false → setC.isnan = false →
      Flt.lt tC (Flt.ofInt MIN_SAFE_TEMPERATURE_VALUE) = false →
      Flt.gt tC (Flt.ofInt MAX_SAFE_TEMPERATURE_VALUE) = false →
      (Flt.lt setC (Flt.ofInt POT_MIN_TEMPERATURE_VALUE) = true ∨
        Flt.gt setC (Flt.ofInt POT_MAX_TEMPERATURE_VALUE) = true) →
      checkRanges tC setC =
        (false, [Effect.logValue LOG_ERROR "SETPOINT OUT OF ALLOWED RANGE" setC])) := by
  refine ⟨?_, ?_, ?_, ?_, ?_, ?_⟩
  · unfold checkRanges
    split_ifs <;> simp
  · unfold checkRanges
    split_ifs <;> simp
  · intro h
    simp [checkRanges, h]
  · intro h1 h2
    simp [checkRanges, h1, h2]
  · intro h1 h2 h3
    have h : (Flt.lt tC (Flt.ofInt MIN_SAFE_TEMPERATURE_VALUE) ||
        Flt.gt tC (Flt.ofInt MAX_SAFE_TEMPERATURE_VALUE)) = true := by
      rcases h3 with h | h <;> simp [h]
    simp [checkRanges, h1, h2, h]
  · intro h1 h2 h3 h4 h5
    have h : (Flt.lt setC (Flt.ofInt POT_MIN_TEMPERATURE_VALUE) ||
        Flt.gt setC (Flt.ofInt POT_MAX_TEMPERATURE_VALUE)) = true := by
      rcases h5 with h | h <;> simp [h]
    simp [checkRanges, h1, h2, h3, h4, h]

/-- C12 on a NaN temperature together with a setpoint out of range: the only
diagnostic is the one of the first check. -/
theorem checkRanges_diagnostic_witness :
    checkRanges Flt.nan (Flt.fin 99) =
      (false, [Effect.logValue LOG_ERROR "TEMPERATURE NaN" Flt.nan]) :=
  (checkRanges_diagnostic Flt.nan (Flt.fin 99)).2.2.1 rfl

/-- C13: with the over-timer inactive, a call with `tC > setC` leaves the motor
flag as it was and logs no MOTOR ON transition, at any clock value; the
over-timer is inactive in the initial state and after every call with
`tC <= setC`, whatever the state before it. Symmetrically, with the under-timer
inactive, a call with `tC < setC` leaves the motor flag as it was and logs no
MOTOR OFF transition, and the under-timer is inactive in the initial state and
after every call with `tC >= setC`. -/
theorem no_transition_on_first_reading (s : MotorState) (now : Nat) (tC setC : Flt) :
    (s.overTiming = false → Flt.gt tC setC = true →
      (updateMotorTwoSpeed s now tC setC).state.motorOn = s.motorOn ∧
      (overStep s now tC setC).2 = [] ∧
      (s.motorOn = false → (updateMotorTwoSpeed s now tC setC).pwm = 0)) ∧
    (s.underTiming = false → Flt.lt tC setC = true →
      (updateMotorTwoSpeed s now tC setC).state.motorOn = s.motorOn ∧
      (underStep (overStep s now tC setC).1 now tC setC).2 = [] ∧
      (s.motorOn = true → (updateMotorTwoSpeed s now tC setC).pwm ≠ 0)) ∧
    (Flt.le tC setC = true → (updateMotorTwoSpeed s now tC setC).state.overTiming = false) ∧
    (Flt.ge tC setC = true → (updateMotorTwoSpeed s now tC setC).state.underTiming = false) ∧
    MotorState.init.overTiming = false ∧ MotorState.init.underTiming = false := by
  refine ⟨?_, ?_, ?_, ?_, rfl, rfl⟩
  · intro hidle hg
    have hm : (updateMotorTwoSpeed s now tC setC).state.motorOn = s.motorOn := by
      rw [update_state, onOffStep_over s now tC setC hg]
      simp [hidle, holdElapsed_self]
    refine ⟨hm, (overStep_idle s now tC setC hidle).1, fun hoff => ?_⟩
    have hp : (updateMotorTwoSpeed s now tC setC).pwm =
        targetPwm (updateMotorTwoSpeed s now tC setC).state.motorOn tC setC := by
      rw [update_pwm, update_state]
    rw [hp, hm, hoff]
    rfl
  · intro hidle hl
    have hm : (updateMotorTwoSpeed s now tC setC).state.motorOn = s.motorOn := by
      rw [update_state, onOffStep_under s now tC setC hl]
      simp [hidle, holdElapsed_self]
    have hu : (overStep s now tC setC).1.underTiming = false := by
      rw [overStep_underTiming, hidle]
    refine ⟨hm, (underStep_idle _ now tC setC hu).1, fun hon => ?_⟩
    have hp : (updateMotorTwoSpeed s now tC setC).pwm =
        targetPwm (updateMotorTwoSpeed s now tC setC).state.motorOn tC setC := by
      rw [update_pwm, update_state]
    rw [hp, hm, hon]
    exact targetPwm_on_ne_zero tC setC
  · intro hle
    rw [(update_timers s now tC setC).1]
    exact Flt.gt_false_of_le _ _ hle
  · intro hge
    rw [(update_timers s now tC setC).2]
    exact Flt.lt_false_of_ge _ _ hge

/-- C13 after an interruption: the motor is OFF and `tC = 26` has been above
`setC = 25` since clock 0; a call with `tC = 25` at clock 5000 resets the
over-timer, and the call with `tC = 26` at clock 9000 leaves the motor OFF. -/
theorem no_transition_on_first_reading_witness :
    (updateMotorTwoSpeed
        (updateMotorTwoSpeed
          { motorOn := false, curPwm := 0, overTiming := true, underTiming := false,
            overStart := 0, underStart := 0 } 5000 (Flt.fin 25) (Flt.fin 25)).state
        9000 (Flt.fin 26) (Flt.fin 25)).state.motorOn = false := by
  have hidle := (no_transition_on_first_reading
    { motorOn := false, curPwm := 0, overTiming := true, underTiming := false,
      overStart := 0, underStart := 0 } 5000 (Flt.fin 25) (Flt.fin 25)).2.2.1
    (by simp [Flt.le])
  have h := ((no_transition_on_first_reading
    (updateMotorTwoSpeed
      { motorOn := false, curPwm := 0, overTiming := true, underTiming := false,
        overStart := 0, underStart := 0 } 5000 (Flt.fin 25) (Flt.fin 25)).state
    9000 (Flt.fin 26) (Flt.fin 25)).1 hidle (gt_fin _ _ (by norm_num))).1
  rw [h, update_state, onOffStep_neither _ _ _ _ (by simp [Flt.gt, Flt.lt]) (by simp [Flt.lt])]

/-- C14: the two timers are not both active in the initial state, nor after any
call of `updateMotorTwoSpeed`: after a call `overTiming` is true exactly when
`tC > setC` and `underTiming` exactly when `tC < setC` (for all inputs, NaN
included, where both are false). No call performs both an OFF-to-ON and an
ON-to-OFF transition: one of the two steps logs nothing, and the motor flag
changes in a call exactly when one of them logs its transition. -/
theorem timers_exclusive (s : MotorState) (now : Nat) (tC setC : Flt) :
    ¬ (MotorState.init.overTiming = true ∧ MotorState.init.underTiming = true) ∧
    ¬ ((updateMotorTwoSpeed s now tC setC).state.overTiming = true ∧
        (updateMotorTwoSpeed s now tC setC).state.underTiming = true) ∧
    ((updateMotorTwoSpeed s now tC setC).state.overTiming = true ↔ Flt.gt tC setC = true) ∧
    ((updateMotorTwoSpeed s now tC setC).state.underTiming = true ↔ Flt.lt tC setC = true) ∧
    ((overStep s now tC setC).2 = [] ∨
      (underStep (overStep s now tC setC).1 now tC setC).2 = []) ∧
    ((updateMotorTwoSpeed s now tC setC).state.motorOn ≠ s.motorOn ↔
      ((overStep s now tC setC).2 = [Effect.logMessage LOG_INFO "CHANGE - MOTOR ON"] ∨
        (underStep (overStep s now tC setC).1 now tC setC).2 =
          [Effect.logMessage LOG_INFO "CHANGE - MOTOR OFF"])) := by
  obtain ⟨ho, hu⟩ := update_timers s now tC setC
  have hstate : (updateMotorTwoSpeed s now tC setC).state.motorOn =
      (underStep (overStep s now tC setC).1 now tC setC).1.motorOn := by
    rw [update_state]
    rfl
  refine ⟨by simp [MotorState.init], ?_, by rw [ho], by rw [hu], ?_, ?_⟩
  · rw [ho, hu]
    rintro ⟨hg, hl⟩
    rw [Flt.lt_asymm_bool _ _ hg] at hl
    exact Bool.noConfusion hl
  · rcases overStep_cases s now tC setC with h | ⟨_, hg, _, _⟩
    · exact Or.inl h.1
    · exact Or.inr (underStep_of_not_lt _ now tC setC (Flt.lt_asymm_bool _ _ hg)).2
  · rw [hstate]
    rcases overStep_cases s now tC setC with ⟨e1, m1⟩ | ⟨e1, hg, hoff, m1⟩
    · rcases underStep_cases (overStep s now tC setC).1 now tC setC with
        ⟨e2, m2⟩ | ⟨e2, _, hon, m2⟩
      · rw [e1, e2, m2, m1]
        simp
      · rw [e1, e2, m2]
        rw [m1] at hon
        simp [hon]
    · obtain ⟨m2, e2⟩ := underStep_of_not_lt (overStep s now tC setC).1 now tC setC
        (Flt.lt_asymm_bool _ _ hg)
      rw [e1, e2, m2, m1, hoff]
      simp

/-- C15: for every sequence of calls of `updateMotorTwoSpeed` from the initial
state, with arbitrary inputs, at non-decreasing clock values that do not wrap,
any two consecutive changes of the motor flag (an OFF-to-ON followed by an
ON-to-OFF transition, or the reverse) happen at calls whose clock values differ
by at least `HOLD_MS`. -/
theorem minimum_dwell_time (calls : List Call)
    (hmono : List.Sorted (· ≤ ·) (calls.map (fun c => c.now)))
    (hwrap : ∀ c ∈ calls, c.now < 2 ^ ULONG_BITS) :
    List.Chain' (fun a b => a + HOLD_MS ≤ b) (transitionTimes MotorState.init calls) := by
  have h := dwell_chain calls MotorState.init 0 0 (le_refl _)
    (fun h => by simp [MotorState.init] at h) (fun h => by simp [MotorState.init] at h)
    hmono (fun c hc => ⟨Nat.zero_le _, hwrap c hc⟩)
  cases hl : transitionTimes MotorState.init calls with
  | nil => exact List.chain'_nil
  | cons a l =>
    rw [hl] at h
    exact (List.chain_cons.mp h).2

/-- C15 on a run that turns the motor ON at clock 2000 and OFF at clock 4500. -/
theorem minimum_dwell_time_witness :
    transitionTimes MotorState.init
        [{ now := 0, tC := Flt.fin 26, setC := Flt.fin 25 },
         { now := 2000, tC := Flt.fin 26, setC := Flt.fin 25 },
         { now := 2500, tC := Flt.fin 24, setC := Flt.fin 25 },
         { now := 4500, tC := Flt.fin 24, setC := Flt.fin 25 }] = [2000, 4500] ∧
    List.Chain' (fun a b => a + HOLD_MS ≤ b)
      (transitionTimes MotorState.init
        [{ now := 0, tC := Flt.fin 26, setC := Flt.fin 25 },
         { now := 2000, tC := Flt.fin 26, setC := Flt.fin 25 },
         { now := 2500, tC := Flt.fin 24, setC := Flt.fin 25 },
         { now := 4500, tC := Flt.fin 24, setC := Flt.fin 25 }]) :=
  ⟨by
    norm_num [transitionTimes, updateMotorTwoSpeed, overStep, underStep, applyStep, targetPwm,
      highThresholdC_25, Flt.gt, Flt.lt, Flt.ge, Flt.le, holdElapsed, usub, HOLD_MS,
      ULONG_BITS, MotorState.init, PWM_LOW, PWM_HIGH],
   minimum_dwell_time
    [{ now := 0, tC := Flt.fin 26, setC := Flt.fin 25 },
     { now := 2000, tC := Flt.fin 26, setC := Flt.fin 25 },
     { now := 2500, tC := Flt.fin 24, setC := Flt.fin 25 },
     { now := 4500, tC := Flt.fin 24, setC := Flt.fin 25 }]
    (by simp) (by simp [ULONG_BITS])⟩

/-- C16: every call of `updateMotorTwoSpeed` ends with one `analogWrite` on
`MOSFET_PIN` of the PWM it returns followed by one `digitalWrite` on `LED_PIN`
that is HIGH exactly when that PWM is greater than 0, and these are its only
effects that are not log messages; before them come the MOTOR ON / MOTOR OFF
messages of the ON/OFF step and then the PWM change message, which is logged
exactly when the target PWM differs from the previously applied PWM. -/
theorem output_reassertion (s : MotorState) (now : Nat) (tC setC : Flt) :
    (updateMotorTwoSpeed s now tC setC).effects.filter (fun e => !e.isLog) =
      [Effect.analogWrite MOSFET_PIN (updateMotorTwoSpeed s now tC setC).pwm,
       Effect.digitalWrite LED_PIN (decide ((updateMotorTwoSpeed s now tC setC).pwm > 0))] ∧
    (updateMotorTwoSpeed s now tC setC).effects =
      (overStep s now tC setC).2 ++ (underStep (overStep s now tC setC).1 now tC setC).2 ++
        (if targetPwm (onOffStep s now tC setC).motorOn tC setC ≠ s.curPwm then
          [Effect.logMessage LOG_INFO
            (pwmLabel s.curPwm (targetPwm (onOffStep s now tC setC).motorOn tC setC))]
         else []) ++
        [Effect.analogWrite MOSFET_PIN (updateMotorTwoSpeed s now tC setC).pwm,
         Effect.digitalWrite LED_PIN (decide ((updateMotorTwoSpeed s now tC setC).pwm > 0))] ∧
    ((overStep s now tC setC).2 = [] ∨
      (overStep s now tC setC).2 = [Effect.logMessage LOG_INFO "CHANGE - MOTOR ON"]) ∧
    ((underStep (overStep s now tC setC).1 now tC setC).2 = [] ∨
      (underStep (overStep s now tC setC).1 now tC setC).2 =
        [Effect.logMessage LOG_INFO "CHANGE - MOTOR OFF"]) ∧
    (updateMotorTwoSpeed s now tC setC).pwm =
      targetPwm (onOffStep s now tC setC).motorOn tC setC := by
  have he := update_effects s now tC setC
  have h1 := overStep_effects_log s now tC setC
  have h2 := underStep_effects_log (overStep s now tC setC).1 now tC setC
  refine ⟨?_, he, h1, h2, update_pwm s now tC setC⟩
  rw [he]
  rcases h1 with h1 | h1 <;> rcases h2 with h2 | h2 <;> rw [h1, h2] <;>
    split_ifs <;> simp [Effect.isLog]

/-- C17: if at least two of the three readings lie in `[lo, hi]` then so does
`median3`; if two readings are equal to `v` the result is `v`, and then
`readTemperatureC` returns what it returns on three readings `v`, whatever the
third sample is. -/
theorem median3_spike_suppression (a b c lo hi v : Int) :
    (((lo ≤ a ∧ a ≤ hi) ∧ (lo ≤ b ∧ b ≤ hi)) ∨ ((lo ≤ a ∧ a ≤ hi) ∧ (lo ≤ c ∧ c ≤ hi)) ∨
        ((lo ≤ b ∧ b ≤ hi) ∧ (lo ≤ c ∧ c ≤ hi)) →
      lo ≤ median3 a b c ∧ median3 a b c ≤ hi) ∧
    ((a = v ∧ b = v) ∨ (a = v ∧ c = v) ∨ (b = v ∧ c = v) →
      median3 a b c = v ∧ readTemperatureC a b c = readTemperatureC v v v) := by
  constructor
  · intro h
    unfold median3
    split_ifs <;> omega
  · intro h
    have hm : median3 a b c = v := by
      unfold median3
      split_ifs <;> omega
    have hv : median3 v v v = v := by simp [median3]
    refine ⟨hm, ?_⟩
    unfold readTemperatureC
    rw [hm, hv]

/-- C17 with a spike of 1023 between two readings of 150. -/
theorem median3_spike_suppression_witness :
    median3 150 1023 150 = 150 ∧
      readTemperatureC 150 1023 150 = readTemperatureC 150 150 150 :=
  (median3_spike_suppression 150 1023 150 0 0 150).2 (Or.inr (Or.inl ⟨rfl, rfl⟩))

/-- C18: for a raw dial value `r` in `[0, 1023]`, whatever the tracker state and
the temperature `tC`, `checkRanges` applied to `tC` and the setpoint returned by
`readSetpointC` returns true exactly when `tC` is not NaN and `0 ≤ tC ≤ 50`; its
result is one of: accepted with no diagnostic, "TEMPERATURE NaN", or "TEMP OUT
OF SAFE RANGE", so the two setpoint diagnostics are never emitted. -/
theorem setpoint_guard_unreachable (s : SetpointState) (r : Int) (h0 : 0 ≤ r)
    (h1 : r ≤ 1023) (tC : Flt) :
    ((checkRanges tC (readSetpointC s r).value).1 = true ↔
      (tC.isnan = false ∧ Flt.le (Flt.ofInt MIN_SAFE_TEMPERATURE_VALUE) tC = true ∧
        Flt.le tC (Flt.ofInt MAX_SAFE_TEMPERATURE_VALUE) = true)) ∧
    ((checkRanges tC (readSetpointC s r).value).1 = true ↔
      ∃ t : ℚ, tC = Flt.fin t ∧ 0 ≤ t ∧ t ≤ 50) ∧
    (checkRanges tC (readSetpointC s r).value = (true, []) ∨
      checkRanges tC (readSetpointC s r).value =
        (false, [Effect.logValue LOG_ERROR "TEMPERATURE NaN" tC]) ∨
      checkRanges tC (readSetpointC s r).value =
        (false, [Effect.logValue LOG_ERROR "TEMP OUT OF SAFE RANGE" tC])) ∧
    (∀ v : Flt,
      (checkRanges tC (readSetpointC s r).value).2 ≠
          [Effect.logValue LOG_ERROR "SETPOINT NaN" v] ∧
        (checkRanges tC (readSetpointC s r).value).2 ≠
          [Effect.logValue LOG_ERROR "SETPOINT OUT OF ALLOWED RANGE" v]) := by
  obtain ⟨m0, m1⟩ := mappedSetpoint_range r h0 h1
  have q0 : ¬ ((mappedSetpoint r : ℚ) < 15) := by
    have : (15 : ℚ) ≤ (mappedSetpoint r : ℚ) := by exact_mod_cast m0
    linarith
  have q1 : ¬ ((35 : ℚ) < (mappedSetpoint r : ℚ)) := by
    have : (mappedSetpoint r : ℚ) ≤ 35 := by exact_mod_cast m1
    linarith
  rw [readSetpointC_value]
  have hs : (Flt.ofInt (mappedSetpoint r)).isnan = false := rfl
  have hr : (Flt.lt (Flt.ofInt (mappedSetpoint r)) (Flt.ofInt POT_MIN_TEMPERATURE_VALUE) ||
      Flt.gt (Flt.ofInt (mappedSetpoint r)) (Flt.ofInt POT_MAX_TEMPERATURE_VALUE)) = false := by
    simp [Flt.lt, Flt.gt, Flt.ofInt, POT_MIN_TEMPERATURE_VALUE, POT_MAX_TEMPERATURE_VALUE,
      q0, q1]
  have hcases : checkRanges tC (Flt.ofInt (mappedSetpoint r)) = (true, []) ∨
      checkRanges tC (Flt.ofInt (mappedSetpoint r)) =
        (false, [Effect.logValue LOG_ERROR "TEMPERATURE NaN" tC]) ∨
      checkRanges tC (Flt.ofInt (mappedSetpoint r)) =
        (false, [Effect.logValue LOG_ERROR "TEMP OUT OF SAFE RANGE" tC]) := by
    unfold checkRanges
    rw [hs, hr]
    split_ifs <;> first | contradiction | simp
  refine ⟨?_, ?_, hcases, ?_⟩
  · rw [checkRanges_fst, hs, hr]
    cases tC <;>
      simp [Flt.isnan, Flt.lt, Flt.gt, Flt.le, Flt.ofInt,
        MIN_SAFE_TEMPERATURE_VALUE, MAX_SAFE_TEMPERATURE_VALUE]
  · rw [checkRanges_fst, hs, hr]
    cases tC <;>
      simp [Flt.isnan, Flt.lt, Flt.gt, Flt.le, Flt.ofInt,
        MIN_SAFE_TEMPERATURE_VALUE, MAX_SAFE_TEMPERATURE_VALUE]
  · intro v
    rcases hcases with h | h | h <;> rw [h] <;> simp

/-- C18 at the raw dial value 1023 (setpoint 35) and a temperature of 20. -/
theorem setpoint_guard_unreachable_witness :
    checkRanges (Flt.fin 20) (readSetpointC SetpointState.init 1023).value = (true, []) ∨
      checkRanges (Flt.fin 20) (readSetpointC SetpointState.init 1023).value =
        (false, [Effect.logValue LOG_ERROR "TEMPERATURE NaN" (Flt.fin 20)]) ∨
      checkRanges (Flt.fin 20) (readSetpointC SetpointState.init 1023).value =
        (false, [Effect.logValue LOG_ERROR "TEMP OUT OF SAFE RANGE" (Flt.fin 20)]) :=
  (setpoint_guard_unreachable SetpointState.init 1023 (by decide) (by decide)
    (Flt.fin 20)).2.2.1

/-- C19: `readTemperatureC` returns `((raw / 1023) * 5 - 0.5) * 100` in exact
rational arithmetic, `raw` being the median of the three readings; this is
strictly increasing in `raw`, and for `raw` in `[0, 1023]` the result passes the
temperature check of `checkRanges` (neither below 0 nor above 50) exactly when
`103 ≤ raw ≤ 204`. -/
theorem temperature_conversion :
    ADC_STEPS = Flt.fin 1023 ∧ V_REF = Flt.fin 5 ∧
    (∀ r1 r2 r3 : Int, readTemperatureC r1 r2 r3 =
      Flt.fin ((((median3 r1 r2 r3 : Int) : ℚ) / 1023 * 5 - 1 / 2) * 100)) ∧
    (∀ r1 r2 r3 q1 q2 q3 : Int, median3 r1 r2 r3 < median3 q1 q2 q3 →
      Flt.lt (readTemperatureC r1 r2 r3) (readTemperatureC q1 q2 q3) = true) ∧
    (∀ r1 r2 r3 : Int, 0 ≤ median3 r1 r2 r3 → median3 r1 r2 r3 ≤ 1023 →
      ((Flt.lt (readTemperatureC r1 r2 r3) (Flt.ofInt MIN_SAFE_TEMPERATURE_VALUE) ||
          Flt.gt (readTemperatureC r1 r2 r3) (Flt.ofInt MAX_SAFE_TEMPERATURE_VALUE)) = false ↔
        103 ≤ median3 r1 r2 r3 ∧ median3 r1 r2 r3 ≤ 204)) := by
  refine ⟨ADC_STEPS_eq, rfl, readTemperatureC_eq, ?_, ?_⟩
  · intro r1 r2 r3 q1 q2 q3 h
    rw [readTemperatureC_eq, readTemperatureC_eq]
    simp only [Flt.lt, decide_eq_true_eq]
    exact tempC_mono _ _ h
  · intro r1 r2 r3 _ _
    rw [readTemperatureC_eq]
    simp only [Flt.lt, Flt.gt, Flt.ofInt, MIN_SAFE_TEMPERATURE_VALUE, MAX_SAFE_TEMPERATURE_VALUE,
      Bool.or_eq_false_iff, decide_eq_false_iff_not, not_lt, Int.cast_zero, Int.cast_ofNat,
      tempC_ge_zero_iff, tempC_le_fifty_iff]

/-- C19 at the readings 102, 103, 204 and 205 around the two ends of the safe
range. -/
theorem temperature_conversion_witness :
    Flt.lt (readTemperatureC 102 102 102) (readTemperatureC 103 103 103) = true ∧
    ((Flt.lt (readTemperatureC 204 204 204) (Flt.ofInt MIN_SAFE_TEMPERATURE_VALUE) ||
        Flt.gt (readTemperatureC 204 204 204) (Flt.ofInt MAX_SAFE_TEMPERATURE_VALUE)) = false) ∧
    ¬ ((Flt.lt (readTemperatureC 205 205 205) (Flt.ofInt MIN_SAFE_TEMPERATURE_VALUE) ||
        Flt.gt (readTemperatureC 205 205 205) (Flt.ofInt MAX_SAFE_TEMPERATURE_VALUE)) = false) :=
  ⟨temperature_conversion.2.2.2.1 102 102 102 103 103 103 (by decide),
   (temperature_conversion.2.2.2.2 204 204 204 (by decide) (by decide)).mpr (by decide),
   fun h => absurd ((temperature_conversion.2.2.2.2 205 205 205 (by decide) (by decide)).mp h)
     (by decide)⟩

/-- C20: with logging enabled `logMessage` writes exactly the characters
`<millis> ms LEVEL: message` followed by one line end, through four `print`
calls and one final `println`; `LEVEL` is `levelToStr level`, which is "ERROR"
for `LOG_ERROR`, "WARN" for `LOG_WARN`, "INFO" for `LOG_INFO` and "DEBUG" for
every other level; with the enable flag false it makes no serial call at all. -/
theorem logMessage_line (millis : Nat) (level : LogLevel) (message : String) :
    serialText (logMessage true millis level message) =
      toString millis ++ " ms " ++ levelToStr level ++ ": " ++ message ++ "\r\n" ∧
    logMessage true millis level message =
      [SerialOp.print (toString millis), SerialOp.print " ms ",
       SerialOp.print (levelToStr level), SerialOp.print ": ", SerialOp.println message] ∧
    levelToStr LOG_ERROR = "ERROR" ∧ levelToStr LOG_WARN = "WARN" ∧
    levelToStr LOG_INFO = "INFO" ∧
    (level ≠ LOG_ERROR → level ≠ LOG_WARN → level ≠ LOG_INFO → levelToStr level = "DEBUG") ∧
    logMessage false millis level message = [] ∧
    serialText (logMessage false millis level message) = "" ∧
    LOGGING_ACTIVE = true := by
  refine ⟨?_, rfl, rfl, rfl, rfl, ?_, rfl, rfl, rfl⟩
  · simp [logMessage, serialText, String.append_assoc]
  · intro h1 h2 h3
    simp [levelToStr, h1, h2, h3]

/-- C20 at level `LOG_DEBUG`. -/
theorem logMessage_line_witness : levelToStr LOG_DEBUG = "DEBUG" :=
  (logMessage_line 0 LOG_DEBUG "").2.2.2.2.2.1 (by decide) (by decide) (by decide)

end Thermo
